import Mathlib

/-! Formal model of the Neon Drift Survivor simulation core.

The definitions below are a shallow embedding of the game engine sources
(src/engine/rng.ts, the fixed-step game loop, and src/engine/Engine.ts).
JavaScript numbers are modelled as exact rationals; the unsigned 32-bit
arithmetic of the random generator is modelled as natural numbers reduced
modulo 2^32 (JS bitwise operators operate on the 32-bit bit pattern, which
for non-negative values coincides with the value modulo 2^32).

Irrational primitives are handled as follows, so that every definition
stays executable:
- calls of Math.hypot whose result is only compared against a non-negative
  threshold are embedded as the equivalent comparison of squares
  (for real numbers, hypot(dx,dy) >= s iff s <= 0 or dx^2+dy^2 >= s^2,
  and similarly for the strict and reversed comparisons);
- calls of Math.hypot whose resulting value is used in further arithmetic
  are routed through an oracle field of the evaluation context, as are
  Math.cos, Math.sin and the float constant Math.PI.  Theorems either hold
  for every oracle or carry explicit hypotheses stating the defining
  properties of the oracle at the points where they are needed.
- the generator state mutated by each random() call is threaded explicitly:
  the engine carries the draw stream together with a cursor that counts the
  draws consumed so far. -/

namespace NeonDrift

/-! Deterministic RNG, from src/engine/rng.ts. -/

/-- 2^32, the modulus of all JS 32-bit bitwise operations. -/
def U32 : ℕ := 4294967296

/-- One call of the closure returned by mulberry32: the internal value is
incremented by 0x6d2b79f5 (exact, JS does not truncate the addition), the
temporary t is mixed with imul/xor/shift steps that all reduce to the
32-bit bit pattern, and the 32-bit output word is returned together with
the new internal value. -/
def mulberryStep (value : ℕ) : ℕ × ℕ :=
  let v := value + 0x6d2b79f5
  let t0 := v % U32
  let t1 := ((t0 ^^^ (t0 >>> 15)) * (t0 ||| 1)) % U32
  let t2 := t1 ^^^ ((t1 + ((t1 ^^^ (t1 >>> 7)) * (t1 ||| 61)) % U32) % U32)
  (v, t2 ^^^ (t2 >>> 14))

/-- mulberry32(seed) initialises the internal value to seed >>> 0. -/
def mulberry32 (seed : ℕ) : ℕ := seed % U32

/-- Internal generator value after n calls, starting from mulberry32 seed. -/
def genState (seed : ℕ) : ℕ → ℕ
  | 0 => mulberry32 seed
  | n + 1 => (mulberryStep (genState seed n)).1

/-- 32-bit output word of call n (0-indexed). -/
def genOutNat (seed n : ℕ) : ℕ := (mulberryStep (genState seed n)).2

/-- Float output of call n: the 32-bit word divided by 2^32. -/
def genOut (seed n : ℕ) : ℚ := (genOutNat seed n : ℚ) / (U32 : ℚ)

/-! Fixed-step loop, from the GameLoop source (FIXED_STEP_SECONDS = 1/60,
MAX_ACCUM_SECONDS = 0.25). -/

def fixedStepSeconds : ℚ := 1 / 60

def maxAccumSeconds : ℚ := 1 / 4

/-- The while loop of GameLoop.frame: while the accumulator is at least the
fixed step, call update(FIXED_STEP_SECONDS) and subtract the step.  Returns
the number of update calls together with the remaining accumulator. -/
def drainLoop (acc : ℚ) : ℕ × ℚ :=
  if h : fixedStepSeconds ≤ acc then
    let r := drainLoop (acc - fixedStepSeconds)
    (r.1 + 1, r.2)
  else
    (0, acc)
termination_by (Int.ceil (acc * 60)).toNat
decreasing_by
  have h1 : (1 : ℚ) ≤ acc * 60 := by
    have : (1 : ℚ) / 60 ≤ acc := h
    linarith
  have h2 : (0 : ℤ) < Int.ceil (acc * 60) := Int.ceil_pos.mpr (by linarith)
  have h3 : (acc - fixedStepSeconds) * 60 = acc * 60 - 1 := by
    unfold fixedStepSeconds; ring
  rw [h3, Int.ceil_sub_one]
  omega

/-- Result of one GameLoop.frame tick. -/
structure FrameResult where
  updates : ℕ
  accumulator : ℚ
  renders : ℕ
deriving DecidableEq

/-- GameLoop.frame: clamp the elapsed wall time to MAX_ACCUM_SECONDS, add it
to the accumulator, drain the accumulator in fixed steps (each draining step
invokes update with dt = 1/60), then render exactly once. -/
def frame (acc elapsedSeconds : ℚ) : FrameResult :=
  let acc1 := acc + min elapsedSeconds maxAccumSeconds
  let r := drainLoop acc1
  ⟨r.1, r.2, 1⟩

/-! Exact comparison-of-squares embeddings of Math.hypot comparisons. -/

/-- Exact embedding of the JS comparison Math.hypot(dx,dy) >= s. -/
abbrev hypGe (dx dy s : ℚ) : Prop := s ≤ 0 ∨ s ^ 2 ≤ dx ^ 2 + dy ^ 2

/-- Exact embedding of the JS comparison Math.hypot(dx,dy) > s. -/
abbrev hypGt (dx dy s : ℚ) : Prop := s < 0 ∨ s ^ 2 < dx ^ 2 + dy ^ 2

/-- Exact embedding of the JS comparison Math.hypot(dx,dy) <= s. -/
abbrev hypLe (dx dy s : ℚ) : Prop := 0 ≤ s ∧ dx ^ 2 + dy ^ 2 ≤ s ^ 2

/-- Exact embedding of the JS comparison Math.hypot(dx,dy) < s. -/
abbrev hypLt (dx dy s : ℚ) : Prop := 0 < s ∧ dx ^ 2 + dy ^ 2 < s ^ 2

/-- clamp from Engine.ts: Math.min(max, Math.max(min, value)). -/
def clamp (value lo hi : ℚ) : ℚ := min hi (max lo value)

/-! Data model: the WorldState aggregate of Engine.ts.  The cosmetic string
fields title/description/icon of draft options and the HUD/debug snapshot
payloads are elided (they never feed back into the simulation); everything
that the simulation reads or writes is carried. -/

structure Vec where
  x : ℚ
  y : ℚ
deriving DecidableEq

structure TrailPoint where
  x : ℚ
  y : ℚ
  life : ℚ
  intensity : ℚ
deriving DecidableEq

structure DashRing where
  x : ℚ
  y : ℚ
  age : ℚ
  life : ℚ
  maxRadius : ℚ
deriving DecidableEq

inductive EnemyType
  | glider
  | shard
  | ram
  | boss
deriving DecidableEq

structure WeaponStats where
  name : String
  range : ℚ
  damage : ℚ
  fireRate : ℚ
  projectileSpeed : ℚ
  pierce : ℚ
  chain : ℚ
  critChance : ℚ
  knockback : ℚ
deriving DecidableEq

structure EnemyState where
  id : ℕ
  type : EnemyType
  x : ℚ
  y : ℚ
  vx : ℚ
  vy : ℚ
  radius : ℚ
  hp : ℚ
  maxHp : ℚ
  wobblePhase : ℚ
  fireCooldown : ℚ
  chargeCooldown : ℚ
  windupRemaining : ℚ
  chargeRemaining : ℚ
  contactCooldown : ℚ
  elite : Bool
  xpValue : ℚ
  speedMultiplier : ℚ
  isBoss : Bool
  phase : ℕ
  bossAttackCooldown : ℚ
  bossDashCooldown : ℚ
  bossSpawnCooldown : ℚ
deriving DecidableEq

structure EnemyProjectile where
  id : ℕ
  x : ℚ
  y : ℚ
  vx : ℚ
  vy : ℚ
  radius : ℚ
  life : ℚ
  maxLife : ℚ
  trail : List TrailPoint
deriving DecidableEq

structure PlayerProjectile where
  id : ℕ
  x : ℚ
  y : ℚ
  vx : ℚ
  vy : ℚ
  radius : ℚ
  life : ℚ
  damage : ℚ
  pierceRemaining : ℚ
  chainRemaining : ℚ
  critChance : ℚ
  knockback : ℚ
  hitEnemyIds : List ℕ
  trail : List TrailPoint
deriving DecidableEq

structure OrbitingSaw where
  id : ℕ
  angle : ℚ
  orbitRadius : ℚ
  radius : ℚ
  damage : ℚ
deriving DecidableEq

structure Mine where
  id : ℕ
  x : ℚ
  y : ℚ
  radius : ℚ
  armTime : ℚ
  life : ℚ
  damage : ℚ
  blastRadius : ℚ
deriving DecidableEq

structure ScrapPickup where
  id : ℕ
  x : ℚ
  y : ℚ
  vx : ℚ
  vy : ℚ
  radius : ℚ
  value : ℚ
  life : ℚ
deriving DecidableEq

structure HitBurst where
  x : ℚ
  y : ℚ
  age : ℚ
  life : ℚ
  radius : ℚ
deriving DecidableEq

structure DamageText where
  x : ℚ
  y : ℚ
  age : ℚ
  life : ℚ
  value : ℚ
  crit : Bool
deriving DecidableEq

inductive ParticleKind
  | spark
  | xp
  | dash
  | bloom
deriving DecidableEq

structure Particle where
  x : ℚ
  y : ℚ
  vx : ℚ
  vy : ℚ
  age : ℚ
  life : ℚ
  size : ℚ
  kind : ParticleKind
deriving DecidableEq

structure CameraShake where
  x : ℚ
  y : ℚ
  strength : ℚ
deriving DecidableEq

structure PlayerState where
  x : ℚ
  y : ℚ
  vx : ℚ
  vy : ℚ
  angle : ℚ
  hp : ℚ
  maxHp : ℚ
  radius : ℚ
  invulnRemaining : ℚ
  dashCooldownRemaining : ℚ
  lastMoveDir : Vec
  moveSpeedMultiplier : ℚ
  dashCooldownMultiplier : ℚ
  pickupMagnetMultiplier : ℚ
deriving DecidableEq

structure Director where
  spawnRate : ℚ
  enemySpeed : ℚ
  enemyHp : ℚ
  eliteChance : ℚ
deriving DecidableEq

structure WaveState where
  active : Bool
  label : Option String
  enemyOverride : Option EnemyType
  endsAt : ℚ
  nextAt : ℚ
deriving DecidableEq

structure BossState where
  spawned : Bool
  defeated : Bool
  id : Option ℕ
deriving DecidableEq

structure World where
  width : ℚ
  height : ℚ
  elapsedSeconds : ℚ
  seed : ℕ
  gridOffset : Vec
  cameraShake : CameraShake
  player : PlayerState
  trail : List TrailPoint
  dashRings : List DashRing
  enemies : List EnemyState
  enemyProjectiles : List EnemyProjectile
  playerProjectiles : List PlayerProjectile
  sawBlades : List OrbitingSaw
  mines : List Mine
  scrap : List ScrapPickup
  hitBursts : List HitBurst
  damageTexts : List DamageText
  particles : List Particle
  nextEnemyId : ℕ
  nextProjectileId : ℕ
  nextPickupId : ℕ
  spawnTimer : ℚ
  playerGraceRemaining : ℚ
  playerFlashRemaining : ℚ
  xp : ℚ
  level : ℕ
  xpToNext : ℕ
  enemiesDefeated : ℕ
  weapon : WeaponStats
  weaponCooldown : ℚ
  arcCoilLevel : ℕ
  sawLevel : ℕ
  mineLevel : ℕ
  mineCooldown : ℚ
  director : Director
  wave : WaveState
  boss : BossState
deriving DecidableEq

/-- Settings bag (src/game/settings.ts defaults plus the flags Engine.ts
reads: hitStop, reduceMotion, showDamageText, screenShake, volume). -/
structure Settings where
  volume : ℚ
  screenShake : Bool
  hitStop : Bool
  highContrast : Bool
  reduceMotion : Bool
  showDamageText : Bool
deriving DecidableEq

/-- Evaluation context: the oracles for the irrational float primitives and
the settings bag returned by callbacks.getSettings().  hyp x y stands for
the float Math.hypot(x, y) where the value itself is consumed, cosF/sinF
stand for Math.cos/Math.sin, piF for the float constant Math.PI, and
mkRng seed for the draw stream of mulberry32(seed). -/
structure Ctx where
  hyp : ℚ → ℚ → ℚ
  cosF : ℚ → ℚ
  sinF : ℚ → ℚ
  piF : ℚ
  settings : Settings
  mkRng : ℕ → ℕ → ℚ

/-- normalize from Engine.ts: divide by Math.hypot(x,y) || 1 (so a length of
exactly zero falls back to a divisor of one). -/
def normalize (ctx : Ctx) (v : Vec) : Vec :=
  let len := ctx.hyp v.x v.y
  let d := if len = 0 then 1 else len
  ⟨v.x / d, v.y / d⟩

/-- shouldShake: settings.screenShake && !settings.reduceMotion. -/
def shouldShake (ctx : Ctx) : Bool :=
  ctx.settings.screenShake && !ctx.settings.reduceMotion

/-- MAX_PARTICLES constant. -/
def maxParticles : ℕ := 800

/-- Inner loop of Engine.spawnParticles: each iteration stops early once the
particle list is full, otherwise consumes three draws (angle, speed, size)
and pushes one particle.  r is the draw stream, c the cursor of the next
draw. -/
def spawnParticlesGo (ctx : Ctx) (r : ℕ → ℚ) (x y : ℚ) (kind : ParticleKind)
    (n : ℕ) (w : World) (c : ℕ) : World × ℕ :=
  if h : n = 0 then (w, c)
  else if maxParticles ≤ w.particles.length then (w, c)
  else
    let angle := r c
    let speed := if kind = ParticleKind.bloom then 180 + r (c + 1) * 160
      else 35 + r (c + 1) * 180
    let size := if kind = ParticleKind.bloom then 4 + r (c + 2) * 4
      else 3 / 2 + r (c + 2) * (5 / 2)
    let life : ℚ := if kind = ParticleKind.xp then 9 / 20
      else if kind = ParticleKind.bloom then 8 / 25 else 6 / 25
    let p : Particle :=
      ⟨x, y, ctx.cosF angle * speed, ctx.sinF angle * speed, 0, life, size, kind⟩
    spawnParticlesGo ctx r x y kind (n - 1) {w with particles := w.particles ++ [p]} (c + 3)
termination_by n
decreasing_by omega

/-- Engine.spawnParticles: under reduceMotion the particle count is throttled
to Math.ceil(count * 0.35) before the loop. -/
def spawnParticles (ctx : Ctx) (r : ℕ → ℚ) (x y : ℚ) (kind : ParticleKind)
    (count : ℕ) (w : World) (c : ℕ) : World × ℕ :=
  let count1 := if ctx.settings.reduceMotion then Nat.ceil ((count : ℚ) * 35 / 100) else count
  spawnParticlesGo ctx r x y kind count1 w c

/-- Engine.applyPlayerHit: no effect while dash-invulnerable or already dead;
otherwise scale the raw damage by 0.35 during the grace window, clamp hp at
zero, restart grace and flash, push the player away from the damage source
and request camera shake when enabled. -/
def applyPlayerHit (ctx : Ctx) (w : World) (rawDamage sdx sdy : ℚ) : World :=
  if 0 < w.player.invulnRemaining ∨ w.player.hp ≤ 0 then w
  else
    let graceScale : ℚ := if 0 < w.playerGraceRemaining then 7 / 20 else 1
    let damage := rawDamage * graceScale
    let len0 := ctx.hyp sdx sdy
    let len := if len0 = 0 then 1 else len0
    let shake :=
      if shouldShake ctx then
        {w.cameraShake with strength := max w.cameraShake.strength 7}
      else w.cameraShake
    {w with
      player := {w.player with
        hp := max 0 (w.player.hp - damage)
        vx := w.player.vx + sdx / len * 180
        vy := w.player.vy + sdy / len * 180}
      playerGraceRemaining := 1 / 2
      playerFlashRemaining := 12 / 100
      cameraShake := shake}

/-- Engine.findNearestEnemyInRange inner scan: squared-distance comparison,
no early exit, first-found tie-break (a candidate replaces the current best
only when strictly nearer). -/
def findNearestGo (x y rangeSq : ℚ) :
    List EnemyState → Option (EnemyState × ℚ) → Option (EnemyState × ℚ)
  | [], best => best
  | e :: rest, best =>
    let dSq := (e.x - x) ^ 2 + (e.y - y) ^ 2
    let skip : Bool := decide (rangeSq < dSq) || (match best with
      | some b => decide (b.2 ≤ dSq)
      | none => false)
    findNearestGo x y rangeSq rest (if skip then best else some (e, dSq))

/-- Engine.findNearestEnemyInRange. -/
def findNearestEnemyInRange (x y range : ℚ) (enemies : List EnemyState) :
    Option EnemyState :=
  (findNearestGo x y (range * range) enemies none).map Prod.fst

/-- Combat-relevant mutable engine state threaded through combatSystem:
the world, the engine field hitStopRemaining and the rng cursor. -/
structure CombatSt where
  world : World
  hitStop : ℚ
  cursor : ℕ
deriving DecidableEq

/-- Saw-blade damage against one saw position: enemies overlapping the blade
lose saw.damage * dt * 4 hp. -/
def sawHitEnemies (dt sawX sawY sawRadius dmg : ℚ) (enemies : List EnemyState) :
    List EnemyState :=
  enemies.map fun e =>
    if hypGt (e.x - sawX) (e.y - sawY) (e.radius + sawRadius) then e
    else {e with hp := e.hp - dmg * dt * 4}

/-- First block of Engine.combatSystem: every orbiting saw, positioned on its
orbit around the player, damages all overlapping enemies. -/
def sawPhase (ctx : Ctx) (dt : ℚ) (w : World) : World :=
  let step := fun es (saw : OrbitingSaw) =>
    sawHitEnemies dt
      (w.player.x + ctx.cosF saw.angle * saw.orbitRadius)
      (w.player.y + ctx.sinF saw.angle * saw.orbitRadius)
      saw.radius saw.damage es
  {w with enemies := w.sawBlades.foldl step w.enemies}

/-- Mine explosion block of Engine.combatSystem, iterating over a snapshot of
the mine list: an armed mine touched by any enemy is removed from the live
list and damages every enemy inside its blast radius with linear falloff
(the computed Math.hypot distance value is the ctx.hyp oracle), then spawns
a hit burst and bloom particles. -/
def mineGo (ctx : Ctx) (r : ℕ → ℚ) : List Mine → World → ℕ → World × ℕ
  | [], w, c => (w, c)
  | mine :: rest, w, c =>
    if 0 < mine.armTime then mineGo ctx r rest w c
    else if ¬ ∃ e ∈ w.enemies, hypLe (e.x - mine.x) (e.y - mine.y) (e.radius + mine.radius) then
      mineGo ctx r rest w c
    else
      let w1 := {w with mines := w.mines.filter fun m => m.id ≠ mine.id}
      let blast := fun (e : EnemyState) =>
        let dist := ctx.hyp (e.x - mine.x) (e.y - mine.y)
        if mine.blastRadius < dist then e
        else {e with hp := e.hp - mine.damage * (1 - dist / mine.blastRadius * (11 / 20))}
      let w2 := {w1 with enemies := w1.enemies.map blast}
      let burst : HitBurst := ⟨mine.x, mine.y, 0, 13 / 50, mine.blastRadius * (11 / 20)⟩
      let w3 := {w2 with hitBursts := w2.hitBursts ++ [burst]}
      let q := spawnParticles ctx r mine.x mine.y ParticleKind.bloom 28 w3 c
      mineGo ctx r rest q.1 q.2

/-- Mine block wrapper. -/
def minePhase (ctx : Ctx) (r : ℕ → ℚ) (w : World) (c : ℕ) : World × ℕ :=
  mineGo ctx r w.mines w c

/-- Enemy-contact block of Engine.combatSystem: an enemy whose contact
cooldown has elapsed and which overlaps the player applies type-dependent
contact damage (boss 28, ram 24, otherwise 14) and has its contact cooldown
reset to 0.35.  The player grace window set by an earlier hit in the same
sweep scales later hits, so the world is threaded through in list order. -/
def contactGo (ctx : Ctx) (w : World) : List EnemyState → World × List EnemyState
  | [] => (w, [])
  | e :: rest =>
    if 0 < e.contactCooldown then
      let q := contactGo ctx w rest
      (q.1, e :: q.2)
    else
      let dx := w.player.x - e.x
      let dy := w.player.y - e.y
      if hypGe dx dy (w.player.radius + e.radius) then
        let q := contactGo ctx w rest
        (q.1, e :: q.2)
      else
        let raw : ℚ := if e.isBoss then 28 else if e.type = EnemyType.ram then 24 else 14
        let w1 := applyPlayerHit ctx w raw dx dy
        let q := contactGo ctx w1 rest
        (q.1, {e with contactCooldown := 7 / 20} :: q.2)

/-- Enemy-contact block wrapper. -/
def contactPhase (ctx : Ctx) (w : World) : World :=
  let p := contactGo ctx w w.enemies
  {p.1 with enemies := p.2}

/-- Enemy-projectile block of Engine.combatSystem: projectiles overlapping
the player deal 10 damage and are consumed.  The source iterates the array
backwards, so the recursion processes the tail (later elements) first. -/
def enemyProjGo (ctx : Ctx) (w : World) :
    List EnemyProjectile → World × List EnemyProjectile
  | [] => (w, [])
  | p :: rest =>
    let q := enemyProjGo ctx w rest
    let dx := q.1.player.x - p.x
    let dy := q.1.player.y - p.y
    if hypGe dx dy (q.1.player.radius + p.radius) then (q.1, p :: q.2)
    else (applyPlayerHit ctx q.1 10 dx dy, q.2)

/-- Enemy-projectile block wrapper. -/
def enemyProjPhase (ctx : Ctx) (w : World) : World :=
  let p := enemyProjGo ctx w w.enemyProjectiles
  {p.1 with enemyProjectiles := p.2}

/-- Scan of the inner enemy loop for one player projectile: skip enemies
already recorded in hitEnemyIds and enemies not overlapping the projectile;
return the index and value of the first hit enemy. -/
def firstHitIndex (p : PlayerProjectile) : List EnemyState → ℕ → Option (ℕ × EnemyState)
  | [], _ => none
  | e :: rest, i =>
    if e.id ∈ p.hitEnemyIds then firstHitIndex p rest (i + 1)
    else if hypGt (e.x - p.x) (e.y - p.y) (e.radius + p.radius) then
      firstHitIndex p rest (i + 1)
    else some (i, e)

/-- Body of a player-projectile hit (Engine.combatSystem): record the enemy
id, roll a crit, deal damage, knock the enemy back, push a hit burst and
spark particles, request hit-stop for heavy hits when enabled, push a
floating damage text when enabled, retarget along the chain if budget and a
nearby not-yet-hit living enemy are available, then decrement pierce or
expire the projectile.  Returns the updated combat state and projectile. -/
def hitResolve (ctx : Ctx) (r : ℕ → ℚ) (st : CombatSt) (p : PlayerProjectile)
    (i : ℕ) (e : EnemyState) : CombatSt × PlayerProjectile :=
  let w := st.world
  let dx := e.x - p.x
  let dy := e.y - p.y
  let p1 := {p with hitEnemyIds := p.hitEnemyIds ++ [e.id]}
  let crit := r st.cursor < p.critChance
  let c1 := st.cursor + 1
  let dealt := p.damage * (if crit then 9 / 5 else 1)
  let knock := normalize ctx ⟨dx, dy⟩
  let e1 := {e with
    hp := e.hp - dealt
    vx := e.vx + knock.x * p.knockback
    vy := e.vy + knock.y * p.knockback}
  let w1 := {w with
    enemies := w.enemies.set i e1
    hitBursts := w.hitBursts ++ [⟨e.x, e.y, 0, 1 / 5, 26⟩]}
  let q := spawnParticles ctx r e.x e.y ParticleKind.spark (if crit then 12 else 6) w1 c1
  let w2 := q.1
  let c2 := q.2
  let hs1 := if w.weapon.damage * (17 / 10) ≤ dealt ∧ ctx.settings.hitStop then
    max st.hitStop (9 / 200) else st.hitStop
  let w3 := if ctx.settings.showDamageText then
    {w2 with damageTexts := w2.damageTexts ++ [⟨e.x, e.y - e.radius, 0, 9 / 20, dealt, crit⟩]}
    else w2
  let eligible := w3.enemies.filter fun other =>
    other.id ≠ e.id ∧ other.id ∉ p1.hitEnemyIds ∧ 0 < other.hp
  let p2 :=
    if (0 : ℚ) < p1.chainRemaining then
      match findNearestEnemyInRange e.x e.y 170 eligible with
      | some next =>
        let chainDir := normalize ctx ⟨next.x - e.x, next.y - e.y⟩
        {p1 with
          vx := chainDir.x * w3.weapon.projectileSpeed
          vy := chainDir.y * w3.weapon.projectileSpeed
          chainRemaining := p1.chainRemaining - 1}
      | none => p1
    else p1
  let p3 :=
    if (0 : ℚ) < p2.pierceRemaining then {p2 with pierceRemaining := p2.pierceRemaining - 1}
    else {p2 with life := 0}
  (⟨w3, hs1, c2⟩, p3)

/-- Player-projectile block of Engine.combatSystem: each projectile, in list
order, hits at most the first eligible overlapping enemy this frame. -/
def projGo (ctx : Ctx) (r : ℕ → ℚ) :
    List PlayerProjectile → CombatSt → CombatSt × List PlayerProjectile
  | [], st => (st, [])
  | p :: rest, st =>
    match firstHitIndex p st.world.enemies 0 with
    | none =>
      let q := projGo ctx r rest st
      (q.1, p :: q.2)
    | some (i, e) =>
      let h := hitResolve ctx r st p i e
      let q := projGo ctx r rest h.1
      (q.1, h.2 :: q.2)

/-- Player-projectile block wrapper. -/
def projPhase (ctx : Ctx) (r : ℕ → ℚ) (st : CombatSt) : CombatSt :=
  let p := projGo ctx r st.world.playerProjectiles st
  {p.1 with world := {p.1.world with playerProjectiles := p.2}}

/-- Drop count of Engine.spawnScrap. -/
def scrapDropCount (e : EnemyState) : ℕ :=
  if e.isBoss then 28 else if e.type = EnemyType.ram then 4
  else if e.type = EnemyType.shard then 3 else 2

/-- Scrap value of Engine.spawnScrap. -/
def scrapValueOf (e : EnemyState) : ℚ :=
  if e.isBoss then 6 else e.xpValue

/-- Loop of Engine.spawnScrap: each drop consumes two draws (angle, speed)
and pushes one pickup at the defeated enemy's position. -/
def spawnScrapGo (ctx : Ctx) (r : ℕ → ℚ) (x y value : ℚ)
    (n : ℕ) (w : World) (c : ℕ) : World × ℕ :=
  if h : n = 0 then (w, c)
  else
    let angle := r c
    let speed := 60 + r (c + 1) * 60
    let s : ScrapPickup :=
      ⟨w.nextPickupId, x, y, ctx.cosF angle * speed, ctx.sinF angle * speed, 5, value, 18⟩
    spawnScrapGo ctx r x y value (n - 1)
      {w with scrap := w.scrap ++ [s], nextPickupId := w.nextPickupId + 1} (c + 2)
termination_by n
decreasing_by omega

/-- Engine.spawnScrap. -/
def spawnScrap (ctx : Ctx) (r : ℕ → ℚ) (e : EnemyState) (w : World) (c : ℕ) :
    World × ℕ :=
  spawnScrapGo ctx r e.x e.y (scrapValueOf e) (scrapDropCount e) w c

/-- Defeat sweep of Engine.combatSystem: for every enemy with hp <= 0 bump
the defeat counter, raise the boss-defeated banner for the boss, and spawn
its scrap; afterwards remove all defeated enemies. -/
def sweepGo (ctx : Ctx) (r : ℕ → ℚ) : List EnemyState → World → ℕ → World × ℕ
  | [], w, c => (w, c)
  | e :: rest, w, c =>
    if e.hp ≤ 0 then
      let w1 := {w with enemiesDefeated := w.enemiesDefeated + 1}
      let w2 :=
        if e.isBoss then
          {w1 with
            boss := {w1.boss with defeated := true}
            wave := {w1.wave with
              active := true
              label := some "Neon Warden defeated!"
              endsAt := w1.elapsedSeconds + 8}}
        else w1
      let q := spawnScrap ctx r e w2 c
      sweepGo ctx r rest q.1 q.2
    else sweepGo ctx r rest w c

/-- Defeat sweep wrapper: scrap is spawned for every defeated enemy first,
and only then are the defeated enemies filtered out of the list. -/
def defeatSweep (ctx : Ctx) (r : ℕ → ℚ) (w : World) (c : ℕ) : World × ℕ :=
  let p := sweepGo ctx r w.enemies w c
  ({p.1 with enemies := p.1.enemies.filter fun e => 0 < e.hp}, p.2)

/-- Engine.combatSystem in source order: grace/flash decay, saw damage, mine
explosions, enemy contact, enemy projectiles, player projectiles, defeat
sweep, and finally removal of expired player projectiles. -/
def combatSystem (ctx : Ctx) (r : ℕ → ℚ) (dt : ℚ) (st : CombatSt) : CombatSt :=
  let w0 := {st.world with
    playerGraceRemaining := max 0 (st.world.playerGraceRemaining - dt)
    playerFlashRemaining := max 0 (st.world.playerFlashRemaining - dt)}
  let w1 := sawPhase ctx dt w0
  let q2 := minePhase ctx r w1 st.cursor
  let w3 := contactPhase ctx q2.1
  let w4 := enemyProjPhase ctx w3
  let st5 := projPhase ctx r ⟨w4, st.hitStop, q2.2⟩
  let q6 := defeatSweep ctx r st5.world st5.cursor
  let w7 := {q6.1 with playerProjectiles := q6.1.playerProjectiles.filter fun p => 0 < p.life}
  ⟨w7, st5.hitStop, q6.2⟩

/-- Engine.effectsSystem: age and cull dash rings, hit bursts and damage
texts, integrate and cull particles, decay the camera shake and either zero
it (when weak or reduceMotion) or jitter it with two draws. -/
def effectsSystem (ctx : Ctx) (r : ℕ → ℚ) (dt : ℚ) (w : World) (c : ℕ) :
    World × ℕ :=
  let rings := (w.dashRings.map fun ring => {ring with age := ring.age + dt}).filter
    fun ring => ring.age < ring.life
  let bursts := (w.hitBursts.map fun b => {b with age := b.age + dt}).filter
    fun b => b.age < b.life
  let texts := (w.damageTexts.map fun t =>
    {t with age := t.age + dt, y := t.y - dt * 40}).filter fun t => t.age < t.life
  let moveP := fun (p : Particle) =>
    {p with
      age := p.age + dt
      x := p.x + p.vx * dt
      y := p.y + p.vy * dt
      vx := p.vx * (49 / 50)
      vy := p.vy * (49 / 50)}
  let parts := (w.particles.map moveP).filter fun p => p.age < p.life
  let w0 := {w with dashRings := rings, hitBursts := bursts}
  let w1 := {w0 with damageTexts := texts, particles := parts}
  let strength := max 0 (w1.cameraShake.strength - dt * 35)
  if strength ≤ 1 / 100 ∨ ctx.settings.reduceMotion then
    ({w1 with cameraShake := ⟨0, 0, strength⟩}, c)
  else
    let shook : CameraShake :=
      ⟨(r c * 2 - 1) * strength, (r (c + 1) * 2 - 1) * strength, strength⟩
    ({w1 with cameraShake := shook}, c + 2)

/-! Spawn placement (Engine.findSpawnPoint) and enemy creation. -/

/-- SAFE_SPAWN_RADIUS constant. -/
def safeSpawnRadius : ℚ := 230

/-- One candidate point on a random arena edge (margin 30 outside the
arena): the first draw picks the edge, the second the coordinate along
it. -/
def edgePoint (r : ℕ → ℚ) (width height : ℚ) (c : ℕ) : ℚ × ℚ :=
  let edge := Int.floor (r c * 4)
  if edge = 0 then (-30, r (c + 1) * height)
  else if edge = 1 then (width + 30, r (c + 1) * height)
  else if edge = 2 then (r (c + 1) * width, -30)
  else (r (c + 1) * width, height + 30)

/-- The attempt loop of Engine.findSpawnPoint followed by its fallback: for
attempt = 0 while attempt < 40, draw an edge index and a coordinate along
that edge (two draws) and accept the point once its distance to the player
is at least the safe radius; after 40 failed attempts, fall back to the
point exactly at the safe radius from the player at a random angle (one
draw).  Returns the raw point before the final clamp, together with the
cursor after the consumed draws. -/
def spawnCandidateGo (ctx : Ctx) (r : ℕ → ℚ) (width height px py : ℚ)
    (attempt c : ℕ) : (ℚ × ℚ) × ℕ :=
  if h : attempt < 40 then
    let pt := edgePoint r width height c
    if hypGe (pt.1 - px) (pt.2 - py) safeSpawnRadius then (pt, c + 2)
    else spawnCandidateGo ctx r width height px py (attempt + 1) (c + 2)
  else
    let angle := r c * ctx.piF * 2
    ((px + ctx.cosF angle * safeSpawnRadius,
      py + ctx.sinF angle * safeSpawnRadius), c + 1)
termination_by 40 - attempt
decreasing_by omega

/-- Raw spawn point of Engine.findSpawnPoint before the final clamp. -/
def findSpawnCandidate (ctx : Ctx) (r : ℕ → ℚ) (w : World) (c : ℕ) :
    (ℚ × ℚ) × ℕ :=
  spawnCandidateGo ctx r w.width w.height w.player.x w.player.y 0 c

/-- Engine.findSpawnPoint: the candidate point clamped into
[10, width-10] x [10, height-10] (the same clamp is applied on both the
accepted-candidate path and the fallback path in the source). -/
def findSpawnPoint (ctx : Ctx) (r : ℕ → ℚ) (w : World) (c : ℕ) : (ℚ × ℚ) × ℕ :=
  let p := findSpawnCandidate ctx r w c
  ((clamp p.1.1 10 (w.width - 10), clamp p.1.2 10 (w.height - 10)), p.2)

/-- Engine.createEnemy: danger-banded type roll (one draw), spawn placement,
elite roll (one draw, short-circuited away for a boss type), and the random
behavioural timers (three draws).  Returns the enemy, the world with the
bumped enemy-id counter, and the cursor. -/
def createEnemy (ctx : Ctx) (r : ℕ → ℚ) (w : World) (danger : ℚ)
    (forcedType : Option EnemyType) (c : ℕ) : EnemyState × World × ℕ :=
  let roll := r c
  let type := match forcedType with
    | some t => t
    | none =>
      if danger < 11 / 50 then EnemyType.glider
      else if danger < 29 / 50 then
        (if roll < 7 / 10 then EnemyType.glider else EnemyType.shard)
      else
        (if roll < 9 / 20 then EnemyType.glider
         else if roll < 3 / 4 then EnemyType.shard else EnemyType.ram)
  let sp := findSpawnPoint ctx r w (c + 1)
  let c1 := sp.2
  let baseRadius : ℚ := if type = EnemyType.ram then 16
    else if type = EnemyType.shard then 13 else 12
  let baseHp : ℚ := if type = EnemyType.ram then 48
    else if type = EnemyType.shard then 32 else 22
  let ep : Bool × ℕ :=
    if type = EnemyType.boss then (false, c1)
    else ((if r c1 < w.director.eliteChance then true else false), c1 + 1)
  let elite := ep.1
  let c2 := ep.2
  let radius := if elite then baseRadius * (3 / 2) else baseRadius
  let hp := baseHp * w.director.enemyHp * (if elite then 2 else 1)
  let enemy : EnemyState :=
    { id := w.nextEnemyId
      type := type
      x := sp.1.1
      y := sp.1.2
      vx := 0
      vy := 0
      radius := radius
      hp := hp
      maxHp := hp
      wobblePhase := r c2 * ctx.piF * 2
      fireCooldown := 1 + r (c2 + 1) * (3 / 2)
      chargeCooldown := 13 / 10 + r (c2 + 2) * (6 / 5)
      windupRemaining := 0
      chargeRemaining := 0
      contactCooldown := 0
      elite := elite
      xpValue := if elite then 5 else 2
      speedMultiplier := if elite then 59 / 50 else 1
      isBoss := false
      phase := 1
      bossAttackCooldown := 0
      bossDashCooldown := 0
      bossSpawnCooldown := 0 }
  (enemy, {w with nextEnemyId := w.nextEnemyId + 1}, c2 + 3)

/-- Engine.createBoss. -/
def createBoss (ctx : Ctx) (r : ℕ → ℚ) (w : World) (c : ℕ) :
    EnemyState × World × ℕ :=
  let sp := findSpawnPoint ctx r w c
  let enemy : EnemyState :=
    { id := w.nextEnemyId
      type := EnemyType.boss
      x := sp.1.1
      y := sp.1.2
      vx := 0
      vy := 0
      radius := 42
      hp := 3200
      maxHp := 3200
      wobblePhase := 0
      fireCooldown := 0
      chargeCooldown := 0
      windupRemaining := 0
      chargeRemaining := 0
      contactCooldown := 0
      elite := false
      xpValue := 24
      speedMultiplier := 1
      isBoss := true
      phase := 1
      bossAttackCooldown := 3 / 2
      bossDashCooldown := 3
      bossSpawnCooldown := 6 }
  (enemy, {w with nextEnemyId := w.nextEnemyId + 1}, sp.2)

/-! Upgrade draft engine. -/

inductive Rarity
  | common
  | rare
  | epic
deriving DecidableEq

inductive WeaponKey
  | damage
  | fireRate
  | range
deriving DecidableEq

inductive PlayerKey
  | moveSpeedMultiplier
  | dashCooldownMultiplier
  | pickupMagnetMultiplier
deriving DecidableEq

/-- Deep embedding of the apply closures held by the draft options of
Engine.createUpgradePool. -/
inductive UpgradeEffect
  | weaponScale (key : WeaponKey) (scale : ℚ)
  | playerScale (key : PlayerKey) (scale : ℚ)
  | addMaxHp (amount : ℚ)
  | unlockArc
  | upArc
  | unlockSaw
  | upSaw
  | unlockMine
  | upMine
deriving DecidableEq

/-- A draft option: the cosmetic title/description/icon strings are elided;
id, rarity, the rarity weight and the effect are carried. -/
structure UpgradeChoice where
  id : String
  rarity : Rarity
  rarityWeight : ℚ
  effect : UpgradeEffect
deriving DecidableEq

instance : Inhabited UpgradeChoice :=
  ⟨⟨"", Rarity.common, 0, UpgradeEffect.unlockArc⟩⟩

/-- The upgrade-inventory of the engine, an insertion-ordered association
list from upgrade-record id to stack count (labels and icons elided). -/
abbrev Inventory := List (String × ℕ)

/-- Engine.recordUpgrade: bump the stack of an existing entry, else append a
fresh entry with one stack. -/
def recordUpgrade (inv : Inventory) (id : String) : Inventory :=
  if inv.any fun kv => kv.1 = id then
    inv.map fun kv => if kv.1 = id then (kv.1, kv.2 + 1) else kv
  else inv ++ [(id, 1)]

def weaponKeyName : WeaponKey → String
  | WeaponKey.damage => "damage"
  | WeaponKey.fireRate => "fireRate"
  | WeaponKey.range => "range"

def playerKeyName : PlayerKey → String
  | PlayerKey.moveSpeedMultiplier => "moveSpeedMultiplier"
  | PlayerKey.dashCooldownMultiplier => "dashCooldownMultiplier"
  | PlayerKey.pickupMagnetMultiplier => "pickupMagnetMultiplier"

/-- Engine.applyWeaponScale on the stats record. -/
def scaleWeapon (w : WeaponStats) : WeaponKey → ℚ → WeaponStats
  | WeaponKey.damage, s => {w with damage := w.damage * s}
  | WeaponKey.fireRate, s => {w with fireRate := w.fireRate * s}
  | WeaponKey.range, s => {w with range := w.range * s}

/-- Engine.applyPlayerScale on the player record. -/
def scalePlayer (p : PlayerState) : PlayerKey → ℚ → PlayerState
  | PlayerKey.moveSpeedMultiplier, s => {p with moveSpeedMultiplier := p.moveSpeedMultiplier * s}
  | PlayerKey.dashCooldownMultiplier, s =>
    {p with dashCooldownMultiplier := p.dashCooldownMultiplier * s}
  | PlayerKey.pickupMagnetMultiplier, s =>
    {p with pickupMagnetMultiplier := p.pickupMagnetMultiplier * s}

/-- Application of one upgrade effect: the world mutation together with the
recordUpgrade bookkeeping performed by the source helpers
(applyWeaponScale / applyPlayerScale / increaseMaxHp / the unlock and
upgrade closures).  The record ids follow the source templates, with the
scale rendered through the rational ToString instance. -/
def applyEffect (eff : UpgradeEffect) (w : World) (inv : Inventory) :
    World × Inventory :=
  match eff with
  | UpgradeEffect.weaponScale k s =>
    ({w with weapon := scaleWeapon w.weapon k s},
      recordUpgrade inv (weaponKeyName k ++ "-" ++ toString s))
  | UpgradeEffect.playerScale k s =>
    ({w with player := scalePlayer w.player k s},
      recordUpgrade inv (playerKeyName k ++ "-" ++ toString s))
  | UpgradeEffect.addMaxHp a =>
    ({w with player := {w.player with maxHp := w.player.maxHp + a, hp := w.player.hp + a}},
      recordUpgrade inv ("hp-" ++ toString a))
  | UpgradeEffect.unlockArc => ({w with arcCoilLevel := 1}, recordUpgrade inv "unlock-arc")
  | UpgradeEffect.upArc =>
    ({w with arcCoilLevel := w.arcCoilLevel + 1}, recordUpgrade inv "up-arc")
  | UpgradeEffect.unlockSaw => ({w with sawLevel := 1}, recordUpgrade inv "unlock-saw")
  | UpgradeEffect.upSaw => ({w with sawLevel := w.sawLevel + 1}, recordUpgrade inv "up-saw")
  | UpgradeEffect.unlockMine => ({w with mineLevel := 1}, recordUpgrade inv "unlock-mine")
  | UpgradeEffect.upMine => ({w with mineLevel := w.mineLevel + 1}, recordUpgrade inv "up-mine")

/-- Rarity weights of Engine.createUpgradePool: common 70, rare 22, epic 8. -/
def rarityWeightOf : Rarity → ℚ
  | Rarity.common => 70
  | Rarity.rare => 22
  | Rarity.epic => 8

/-- Helper mirroring the add() wrapper of Engine.createUpgradePool. -/
def mkChoice (id : String) (rar : Rarity) (eff : UpgradeEffect) : UpgradeChoice :=
  ⟨id, rar, rarityWeightOf rar, eff⟩

/-- Engine.createUpgradePool: the 21 fixed stat upgrades plus one entry per
hazard that is either an unlock (level 0) or a level-up. -/
def createUpgradePool (w : World) : List UpgradeChoice :=
  [ mkChoice "damage-10" Rarity.common (UpgradeEffect.weaponScale WeaponKey.damage (11 / 10))
  , mkChoice "damage-15" Rarity.rare (UpgradeEffect.weaponScale WeaponKey.damage (23 / 20))
  , mkChoice "damage-20" Rarity.epic (UpgradeEffect.weaponScale WeaponKey.damage (6 / 5))
  , mkChoice "fire-10" Rarity.common (UpgradeEffect.weaponScale WeaponKey.fireRate (11 / 10))
  , mkChoice "fire-15" Rarity.rare (UpgradeEffect.weaponScale WeaponKey.fireRate (23 / 20))
  , mkChoice "fire-20" Rarity.epic (UpgradeEffect.weaponScale WeaponKey.fireRate (6 / 5))
  , mkChoice "range-10" Rarity.common (UpgradeEffect.weaponScale WeaponKey.range (11 / 10))
  , mkChoice "range-15" Rarity.rare (UpgradeEffect.weaponScale WeaponKey.range (23 / 20))
  , mkChoice "range-20" Rarity.epic (UpgradeEffect.weaponScale WeaponKey.range (6 / 5))
  , mkChoice "move-8" Rarity.common
      (UpgradeEffect.playerScale PlayerKey.moveSpeedMultiplier (27 / 25))
  , mkChoice "move-12" Rarity.rare
      (UpgradeEffect.playerScale PlayerKey.moveSpeedMultiplier (28 / 25))
  , mkChoice "move-16" Rarity.epic
      (UpgradeEffect.playerScale PlayerKey.moveSpeedMultiplier (29 / 25))
  , mkChoice "dash-10" Rarity.common
      (UpgradeEffect.playerScale PlayerKey.dashCooldownMultiplier (9 / 10))
  , mkChoice "dash-15" Rarity.rare
      (UpgradeEffect.playerScale PlayerKey.dashCooldownMultiplier (17 / 20))
  , mkChoice "dash-20" Rarity.epic
      (UpgradeEffect.playerScale PlayerKey.dashCooldownMultiplier (4 / 5))
  , mkChoice "hp-15" Rarity.common (UpgradeEffect.addMaxHp 15)
  , mkChoice "hp-25" Rarity.rare (UpgradeEffect.addMaxHp 25)
  , mkChoice "hp-40" Rarity.epic (UpgradeEffect.addMaxHp 40)
  , mkChoice "magnet-20" Rarity.common
      (UpgradeEffect.playerScale PlayerKey.pickupMagnetMultiplier (6 / 5))
  , mkChoice "magnet-35" Rarity.rare
      (UpgradeEffect.playerScale PlayerKey.pickupMagnetMultiplier (27 / 20))
  , mkChoice "magnet-50" Rarity.epic
      (UpgradeEffect.playerScale PlayerKey.pickupMagnetMultiplier (3 / 2)) ]
  ++ (if w.arcCoilLevel = 0 then [mkChoice "unlock-arc" Rarity.rare UpgradeEffect.unlockArc]
      else [mkChoice "up-arc" Rarity.epic UpgradeEffect.upArc])
  ++ (if w.sawLevel = 0 then [mkChoice "unlock-saw" Rarity.rare UpgradeEffect.unlockSaw]
      else [mkChoice "up-saw" Rarity.epic UpgradeEffect.upSaw])
  ++ (if w.mineLevel = 0 then [mkChoice "unlock-mine" Rarity.rare UpgradeEffect.unlockMine]
      else [mkChoice "up-mine" Rarity.epic UpgradeEffect.upMine])

/-- Weighted index scan of Engine.rollDraftChoices: subtract weights until
the roll drops to zero or below; if it never does, the index ends up equal
to the pool length (the caller clamps it). -/
def pickIndex (roll : ℚ) : List UpgradeChoice → ℕ
  | [] => 0
  | x :: rest => if roll - x.rarityWeight ≤ 0 then 0 else 1 + pickIndex (roll - x.rarityWeight) rest

/-- The while loop of Engine.rollDraftChoices: while fewer than three options
are picked and the pool is nonempty, draw one number, scale it by the total
pool weight, pick the corresponding entry (index clamped to the pool) and
remove it from the pool without replacement. -/
def rollGo (r : ℕ → ℚ) (c : ℕ) (pool picked : List UpgradeChoice) :
    List UpgradeChoice × ℕ :=
  if h : picked.length < 3 ∧ pool ≠ [] then
    let total := pool.foldl (fun s x => s + x.rarityWeight) 0
    let roll := r c * total
    let idx := min (pickIndex roll pool) (pool.length - 1)
    let opt := pool.getD idx default
    rollGo r (c + 1) (pool.eraseIdx idx) (picked ++ [opt])
  else (picked, c)
termination_by pool.length
decreasing_by
  have hne : pool ≠ [] := h.2
  have hlen : 0 < pool.length := List.length_pos.mpr hne
  have : (pool.eraseIdx (min (pickIndex (r c * pool.foldl (fun s x => s + x.rarityWeight) 0)
      pool) (pool.length - 1))).length ≤ pool.length - 1 := by
    rw [List.length_eraseIdx]
    split <;> omega
  omega

/-- Engine.rollDraftChoices. -/
def rollDraftChoices (r : ℕ → ℚ) (c : ℕ) (pool : List UpgradeChoice) :
    List UpgradeChoice × ℕ :=
  rollGo r c pool []

/-! Engine state and the update step. -/

inductive RestartMode
  | sameSeed
  | newSeed
deriving DecidableEq

/-- Emissions to the external collaborators (audio volume, the pause-toggle
callback, HUD/debug snapshots, draft-change and inventory notifications).
Snapshot payloads are derived data and are elided. -/
inductive Emit
  | audioVolume (v : ℚ)
  | pauseToggle
  | hud
  | debug
  | draftChange (active : Bool) (optionIds : List String)
  | inventory
deriving DecidableEq

/-- The engine-owned mutable state outside the world: the generator (draw
stream plus consumed-draw cursor), the debug flag, the draft state, the
upgrade inventory and the hit-stop timer. -/
structure Engine where
  world : World
  stream : ℕ → ℚ
  cursor : ℕ
  debugEnabled : Bool
  draftOptions : List UpgradeChoice
  draftActive : Bool
  inventory : Inventory
  hitStopRemaining : ℚ

/-- Per-step input and callback values consumed by Engine.update: the
pause/debug pulses, the consumed restart mode (with the fresh seed the
entropy source would produce), the consumed draft choice, and the
isPaused/isGameOver callback values. -/
structure Input where
  pausePressed : Bool
  debugPressed : Bool
  restartMode : Option RestartMode
  freshSeed : ℕ
  draftChoice : Option ℤ
  isPaused : Bool
  isGameOver : Bool

/-- A simulation system as stored in Engine.systems: a closure over the
engine taking the fixed dt, mutating the engine state and possibly emitting
to collaborators. -/
abbrev Sys := ℚ → Engine → Engine × List Emit

/-- Engine.chooseDraftOption: a no-op unless the draft is active, the index
is in [0,2] and the option exists; otherwise apply the chosen option's
effect exactly once, deactivate the draft, clear the options and emit the
draft-change, HUD and inventory notifications. -/
def chooseDraftOption (i : ℤ) (e : Engine) : Engine × List Emit :=
  if e.draftActive = false ∨ i < 0 ∨ 2 < i then (e, [])
  else
    match e.draftOptions.get? i.toNat with
    | none => (e, [])
    | some opt =>
      let p := applyEffect opt.effect e.world e.inventory
      ({e with
          world := p.1
          inventory := p.2
          draftActive := false
          draftOptions := []},
        [Emit.draftChange false [], Emit.hud, Emit.inventory])

/-- STARTING_WEAPON. -/
def startingWeapon : WeaponStats :=
  { name := "Pulse Blaster"
    range := 460
    damage := 12
    fireRate := 5
    projectileSpeed := 520
    pierce := 1
    chain := 1
    critChance := 9 / 50
    knockback := 140 }

/-- Engine.restart: reseed the generator (reusing the current seed or taking
the fresh one), rebuild the whole world in place (arena size preserved),
clear the draft, inventory and hit-stop state, and emit the draft-change,
HUD and inventory notifications.  The grid offset consumes the first two
draws of the new generator. -/
def restart (ctx : Ctx) (mode : RestartMode) (freshSeed : ℕ) (e : Engine) :
    Engine × List Emit :=
  let seed := match mode with
    | RestartMode.sameSeed => e.world.seed
    | RestartMode.newSeed => freshSeed
  let stream := ctx.mkRng seed
  let w := e.world
  let player : PlayerState :=
    { x := w.width * (1 / 2)
      y := w.height * (1 / 2)
      vx := 0
      vy := 0
      angle := -(ctx.piF / 2)
      hp := 100
      maxHp := 100
      radius := 12
      invulnRemaining := 0
      dashCooldownRemaining := 0
      lastMoveDir := ⟨0, -1⟩
      moveSpeedMultiplier := 1
      dashCooldownMultiplier := 1
      pickupMagnetMultiplier := 1 }
  let w1 : World :=
    { width := w.width
      height := w.height
      elapsedSeconds := 0
      seed := seed
      gridOffset := ⟨stream 0 * 48, stream 1 * 48⟩
      cameraShake := ⟨0, 0, 0⟩
      player := player
      trail := []
      dashRings := []
      enemies := []
      enemyProjectiles := []
      playerProjectiles := []
      sawBlades := []
      mines := []
      scrap := []
      hitBursts := []
      damageTexts := []
      particles := []
      nextEnemyId := 1
      nextProjectileId := 1
      nextPickupId := 1
      spawnTimer := 4 / 5
      playerGraceRemaining := 0
      playerFlashRemaining := 0
      xp := 0
      level := 1
      xpToNext := 10
      enemiesDefeated := 0
      weapon := startingWeapon
      weaponCooldown := 0
      arcCoilLevel := 0
      sawLevel := 0
      mineLevel := 0
      mineCooldown := 2
      director := ⟨1, 1, 1, 1 / 25⟩
      wave := ⟨false, none, none, 0, 90⟩
      boss := ⟨false, false, none⟩ }
  ({e with
      world := w1
      stream := stream
      cursor := 2
      draftOptions := []
      draftActive := false
      inventory := []
      hitStopRemaining := 0},
    [Emit.draftChange false [], Emit.hud, Emit.inventory])

/-- Engine.update: set the audio volume, consume the pause, debug and
restart intents, then branch: while the draft is active only a draft choice
is consumed and the debug snapshot is emitted; while paused or game-over the
hit-stop timer is cleared and the debug snapshot is emitted; while hit-stop
is pending it counts down and the HUD/debug snapshots are emitted; otherwise
the simulation clock advances by dt, every system runs once in order, and
the HUD/debug snapshots are emitted. -/
def update (ctx : Ctx) (systems : List Sys) (inp : Input) (dt : ℚ) (e : Engine) :
    Engine × List Emit :=
  let ev1 := [Emit.audioVolume ctx.settings.volume]
    ++ (if inp.pausePressed then [Emit.pauseToggle] else [])
  let e1 := if inp.debugPressed then {e with debugEnabled := !e.debugEnabled} else e
  let p2 := match inp.restartMode with
    | some mode => restart ctx mode inp.freshSeed e1
    | none => (e1, [])
  let e2 := p2.1
  let ev2 := p2.2
  if e2.draftActive then
    let p3 := match inp.draftChoice with
      | some choice => chooseDraftOption choice e2
      | none => (e2, [])
    (p3.1, ev1 ++ ev2 ++ p3.2 ++ [Emit.debug])
  else if inp.isPaused ∨ inp.isGameOver then
    ({e2 with hitStopRemaining := 0}, ev1 ++ ev2 ++ [Emit.debug])
  else if 0 < e2.hitStopRemaining then
    ({e2 with hitStopRemaining := max 0 (e2.hitStopRemaining - dt)},
      ev1 ++ ev2 ++ [Emit.hud, Emit.debug])
  else
    let e3 := {e2 with world :=
      {e2.world with elapsedSeconds := e2.world.elapsedSeconds + dt}}
    let p4 := systems.foldl
      (fun acc sys =>
        let q := sys dt acc.1
        (q.1, acc.2 ++ q.2))
      (e3, ([] : List Emit))
    (p4.1, ev1 ++ ev2 ++ p4.2 ++ [Emit.hud, Emit.debug])

/-! Leveling (the tail of Engine.pickupSystem) and the draft start. -/

/-- The xpToNext growth rule: Math.ceil(xpToNext * 1.3 + 4).  xpToNext is
always a positive integer in the engine (initialised to 10 and recomputed
through Math.ceil), so it is carried as a natural number. -/
def nextThreshold (n : ℕ) : ℕ := Nat.ceil ((n : ℚ) * 13 / 10 + 4)

/-- Engine.startDraft: roll three options from a freshly generated pool,
activate the draft and emit the draft-change notification. -/
def startDraft (e : Engine) : Engine × List Emit :=
  let p := rollDraftChoices e.stream e.cursor (createUpgradePool e.world)
  ({e with draftOptions := p.1, draftActive := true, cursor := p.2},
    [Emit.draftChange true (p.1.map fun opt => opt.id)])

/-- The level-up while loop of Engine.pickupSystem: while xp >= xpToNext,
subtract xpToNext, bump the level, recompute xpToNext and start a draft.
The extra conjunct 0 < xpToNext in the guard makes the recursion
well-founded; it holds for every state the engine can reach (xpToNext is 10
initially and every recomputed value is at least 5), and on such states the
definition coincides with the source loop. -/
def levelLoopE (e : Engine) : Engine × List Emit :=
  if h : (e.world.xpToNext : ℚ) ≤ e.world.xp ∧ 0 < e.world.xpToNext then
    let w := e.world
    let w1 := {w with
      xp := w.xp - w.xpToNext
      level := w.level + 1
      xpToNext := nextThreshold w.xpToNext}
    let p1 := startDraft {e with world := w1}
    let p2 := levelLoopE p1.1
    (p2.1, p1.2 ++ p2.2)
  else (e, [])
termination_by (Int.ceil e.world.xp).toNat
decreasing_by
  simp only [startDraft]
  have hx : (1 : ℚ) ≤ e.world.xp := by
    have h2 : (1 : ℚ) ≤ (e.world.xpToNext : ℚ) := by exact_mod_cast h.2
    linarith [h.1]
  have hceil : Int.ceil (e.world.xp - (e.world.xpToNext : ℚ)) =
      Int.ceil e.world.xp - (e.world.xpToNext : ℤ) := by
    have := Int.ceil_sub_int e.world.xp (e.world.xpToNext : ℤ)
    simpa using this
  have hpos : (0 : ℤ) < Int.ceil e.world.xp := Int.ceil_pos.mpr (by linarith)
  simp only [hceil]
  omega

/-- The pickup-collection tail of Engine.pickupSystem for one collected
pickup: add its value to xp, spawn three xp particles at the pickup's
position, then run the level-up loop. -/
def collectPickup (ctx : Ctx) (e : Engine) (px py value : ℚ) :
    Engine × List Emit :=
  let w1 := {e.world with xp := e.world.xp + value}
  let p := spawnParticles ctx e.stream px py ParticleKind.xp 3 w1 e.cursor
  levelLoopE {e with world := p.1, cursor := p.2}

/-- Engine.createWorld, parameterised by the canvas size it reads. -/
def createWorld (width height : ℚ) : World :=
  { width := width
    height := height
    elapsedSeconds := 0
    seed := 0
    gridOffset := ⟨0, 0⟩
    cameraShake := ⟨0, 0, 0⟩
    player :=
      { x := 0
        y := 0
        vx := 0
        vy := 0
        angle := 0
        hp := 100
        maxHp := 100
        radius := 12
        invulnRemaining := 0
        dashCooldownRemaining := 0
        lastMoveDir := ⟨0, -1⟩
        moveSpeedMultiplier := 1
        dashCooldownMultiplier := 1
        pickupMagnetMultiplier := 1 }
    trail := []
    dashRings := []
    enemies := []
    enemyProjectiles := []
    playerProjectiles := []
    sawBlades := []
    mines := []
    scrap := []
    hitBursts := []
    damageTexts := []
    particles := []
    nextEnemyId := 1
    nextProjectileId := 1
    nextPickupId := 1
    spawnTimer := 1
    playerGraceRemaining := 0
    playerFlashRemaining := 0
    xp := 0
    level := 1
    xpToNext := 10
    enemiesDefeated := 0
    weapon := startingWeapon
    weaponCooldown := 0
    arcCoilLevel := 0
    sawLevel := 0
    mineLevel := 0
    mineCooldown := 2
    director := ⟨1, 1, 1, 1 / 25⟩
    wave := ⟨false, none, none, 0, 90⟩
    boss := ⟨false, false, none⟩ }

/-! Concrete fixtures used by witnesses and counterexamples. -/

/-- Default settings from src/game/settings.ts. -/
def defaultSettings : Settings :=
  ⟨1 / 2, true, true, false, false, true⟩

/-- An evaluation context with trivial oracles (hyp = 0, cos = 1, sin = 0,
pi = 0, zero draw streams) over the given settings. -/
def mkCtx (s : Settings) : Ctx :=
  ⟨fun _ _ => 0, fun _ => 1, fun _ => 0, 0, s, fun _ _ => 0⟩

/-- A freshly created engine state on an 800 x 600 arena. -/
def sampleEngine : Engine :=
  { world := createWorld 800 600
    stream := fun _ => 0
    cursor := 0
    debugEnabled := false
    draftOptions := []
    draftActive := false
    inventory := []
    hitStopRemaining := 0 }

/-- A glider enemy fixture with the given id, position, radius and hp. -/
def mkEnemy (id : ℕ) (x y radius hp : ℚ) : EnemyState :=
  { id := id
    type := EnemyType.glider
    x := x
    y := y
    vx := 0
    vy := 0
    radius := radius
    hp := hp
    maxHp := hp
    wobblePhase := 0
    fireCooldown := 0
    chargeCooldown := 0
    windupRemaining := 0
    chargeRemaining := 0
    contactCooldown := 0
    elite := false
    xpValue := 2
    speedMultiplier := 1
    isBoss := false
    phase := 1
    bossAttackCooldown := 0
    bossDashCooldown := 0
    bossSpawnCooldown := 0 }

/-- A player-projectile fixture with the given id, position and budgets. -/
def mkProjectile (id : ℕ) (x y pierce chain critChance : ℚ) : PlayerProjectile :=
  { id := id
    x := x
    y := y
    vx := 0
    vy := 0
    radius := 5
    life := 1
    damage := 10
    pierceRemaining := pierce
    chainRemaining := chain
    critChance := critChance
    knockback := 0
    hitEnemyIds := []
    trail := [] }

/-- Pointwise damage relation between enemy lists: every enemy of the second
list descends from an enemy of the first with the same maxHp and no more
hp.  Used to track that the combat phases only ever decrease enemy hp and
never touch maxHp. -/
def EnemiesLe (l l2 : List EnemyState) : Prop :=
  ∀ e2 ∈ l2, ∃ e ∈ l, e2.maxHp = e.maxHp ∧ e2.hp ≤ e.hp

/-- An oracle context whose hypot oracle knows the 100-0 distance, for the
chain-retarget scenario. -/
def chainCtx : Ctx :=
  {mkCtx defaultSettings with hyp := fun a b => if a = 100 ∧ b = 0 then 100 else 0}

/-- A two-enemy world for the chain-retarget scenario: one enemy under the
projectile and one 100 units to the right. -/
def chainWorld : World :=
  {createWorld 800 600 with enemies := [mkEnemy 1 0 0 10 100, mkEnemy 2 100 0 10 100]}

/-- Settings with every cosmetic flag off. -/
def settingsOff : Settings := ⟨1 / 2, false, false, false, false, false⟩

/-- Same settings with only reduce-motion switched on. -/
def settingsRM : Settings := ⟨1 / 2, false, false, false, true, false⟩

/-- A draw stream whose only low draw sits at cursor 19: a crit roll reading
this position crits, any other position does not. -/
def rmStream : ℕ → ℚ := fun n => if n = 19 then 0 else 9 / 10

/-- A two-enemy, two-projectile world (player far away) where both
projectiles hit their enemy in the same combat step. -/
def rmWorld : World :=
  {createWorld 2000 2000 with
    player := {(createWorld 2000 2000).player with x := 1000, y := 1000}
    enemies := [mkEnemy 1 100 100 10 100, mkEnemy 2 300 300 10 100]
    playerProjectiles := [mkProjectile 21 100 100 1 0 0, mkProjectile 22 300 300 1 0 (1 / 2)]}

/-! Theorems. -/

/-- Every output word of one generator step fits in 32 bits. -/
theorem mulberryStep_out_lt (v : ℕ) : (mulberryStep v).2 < U32 := by
  have hU : U32 = 2 ^ 32 := by norm_num [U32]
  unfold mulberryStep
  simp only
  have h1 : ((v + 0x6d2b79f5) % U32) < U32 := Nat.mod_lt _ (by norm_num [U32])
  set t0 := (v + 0x6d2b79f5) % U32 with ht0
  have h2 : ((t0 ^^^ (t0 >>> 15)) * (t0 ||| 1)) % U32 < U32 :=
    Nat.mod_lt _ (by norm_num [U32])
  set t1 := ((t0 ^^^ (t0 >>> 15)) * (t0 ||| 1)) % U32 with ht1
  have h3 : (t1 + ((t1 ^^^ (t1 >>> 7)) * (t1 ||| 61)) % U32) % U32 < U32 :=
    Nat.mod_lt _ (by norm_num [U32])
  have h4 : t1 ^^^ ((t1 + ((t1 ^^^ (t1 >>> 7)) * (t1 ||| 61)) % U32) % U32) < U32 := by
    rw [hU] at h2 h3 ⊢
    exact Nat.xor_lt_two_pow h2 h3
  set t2 := t1 ^^^ ((t1 + ((t1 ^^^ (t1 >>> 7)) * (t1 ||| 61)) % U32) % U32) with ht2
  have h5 : t2 >>> 14 ≤ t2 := by
    rw [Nat.shiftRight_eq_div_pow]
    exact Nat.div_le_self _ _
  rw [hU] at h4 ⊢
  exact Nat.xor_lt_two_pow h4 (lt_of_le_of_lt h5 h4)

/-- C1: every call of a mulberry32 generator returns a number in [0, 1), and
any generator instance whose state thread starts at mulberry32(seed) and
advances by mulberryStep reproduces exactly the reference state and output
sequence — so two instances created from the same seed agree at every
position.  (The JS closure's mutable cell is modelled by the explicit state
thread g.) -/
theorem mulberry32_range_and_determinism :
    (∀ seed n : ℕ, 0 ≤ genOut seed n ∧ genOut seed n < 1) ∧
    (∀ (seed : ℕ) (g : ℕ → ℕ), g 0 = mulberry32 seed →
      (∀ n, g (n + 1) = (mulberryStep (g n)).1) →
      ∀ n, g n = genState seed n ∧ (mulberryStep (g n)).2 = genOutNat seed n) := by
  constructor
  · intro seed n
    have hlt : genOutNat seed n < U32 := mulberryStep_out_lt (genState seed n)
    have hU : (0 : ℚ) < (U32 : ℚ) := by norm_num [U32]
    constructor
    · exact div_nonneg (by positivity) (le_of_lt hU)
    · rw [genOut, div_lt_one hU]
      exact_mod_cast hlt
  · intro seed g h0 hstep n
    induction n with
    | zero => exact ⟨h0, by rw [h0]; rfl⟩
    | succ k ih =>
      have hk : g (k + 1) = genState seed (k + 1) := by
        rw [hstep k, ih.1]; rfl
      exact ⟨hk, by rw [genOutNat, hk]⟩

/-- Witness for the C1 theorem at seed 1: the range bound at call 0 and the
trajectory-uniqueness conclusion applied to the reference thread itself. -/
theorem mulberry32_range_and_determinism_witness :
    genOut 1 0 < 1 ∧ (mulberryStep (genState 1 2)).2 = genOutNat 1 2 :=
  ⟨(mulberry32_range_and_determinism.1 1 0).2,
    (mulberry32_range_and_determinism.2 1 (genState 1) rfl (fun _ => rfl) 2).2⟩

/-- Full characterisation of the drain loop: on a non-negative accumulator it
performs exactly floor(acc * 60) update calls and leaves a remainder in
[0, 1/60). -/
theorem drainLoop_spec :
    ∀ (m : ℕ) (acc : ℚ), (Int.ceil (acc * 60)).toNat ≤ m → 0 ≤ acc →
      (drainLoop acc).1 = (Int.floor (acc * 60)).toNat ∧
      0 ≤ (drainLoop acc).2 ∧ (drainLoop acc).2 < fixedStepSeconds := by
  intro m
  induction m with
  | zero =>
    intro acc hm h0
    have hguard : ¬ fixedStepSeconds ≤ acc := by
      intro hge
      have h1 : (1 : ℚ) ≤ acc * 60 := by
        have : (1 : ℚ) / 60 ≤ acc := hge
        linarith
      have h2 : (1 : ℤ) ≤ Int.ceil (acc * 60) := by
        calc (1 : ℤ) = Int.ceil (1 : ℚ) := by simp
        _ ≤ Int.ceil (acc * 60) := Int.ceil_le_ceil h1
      omega
    rw [drainLoop, dif_neg hguard]
    have hlt : acc * 60 < 1 := by
      by_contra hc
      push_neg at hc
      have h2 : (1 : ℤ) ≤ Int.ceil (acc * 60) := by
        calc (1 : ℤ) = Int.ceil (1 : ℚ) := by simp
        _ ≤ Int.ceil (acc * 60) := Int.ceil_le_ceil hc
      omega
    have hfl : Int.floor (acc * 60) = 0 := by
      rw [Int.floor_eq_zero_iff]
      constructor
      · positivity
      · exact hlt
    refine ⟨by simp [hfl], h0, ?_⟩
    have : acc < 1 / 60 := by linarith
    simpa [fixedStepSeconds] using this
  | succ k ih =>
    intro acc hm h0
    by_cases hguard : fixedStepSeconds ≤ acc
    · rw [drainLoop, dif_pos hguard]
      have hstep : (0 : ℚ) ≤ acc - fixedStepSeconds := by
        simpa using hguard
      have hmul : (acc - fixedStepSeconds) * 60 = acc * 60 - 1 := by
        unfold fixedStepSeconds; ring
      have hceil : Int.ceil ((acc - fixedStepSeconds) * 60) = Int.ceil (acc * 60) - 1 := by
        rw [hmul, Int.ceil_sub_one]
      have hmeas : (Int.ceil ((acc - fixedStepSeconds) * 60)).toNat ≤ k := by
        have h1 : (1 : ℚ) ≤ acc * 60 := by
          have : (1 : ℚ) / 60 ≤ acc := hguard
          linarith
        have h2 : (1 : ℤ) ≤ Int.ceil (acc * 60) := by
          calc (1 : ℤ) = Int.ceil (1 : ℚ) := by simp
          _ ≤ Int.ceil (acc * 60) := Int.ceil_le_ceil h1
        omega
      obtain ⟨ihn, ihl, ihr⟩ := ih (acc - fixedStepSeconds) hmeas hstep
      refine ⟨?_, ihl, ihr⟩
      have hfl : Int.floor ((acc - fixedStepSeconds) * 60) = Int.floor (acc * 60) - 1 := by
        rw [hmul, Int.floor_sub_one]
      have hpos : (1 : ℤ) ≤ Int.floor (acc * 60) := by
        have h1 : (1 : ℚ) ≤ acc * 60 := by
          have : (1 : ℚ) / 60 ≤ acc := hguard
          linarith
        calc (1 : ℤ) = Int.floor (1 : ℚ) := by simp
        _ ≤ Int.floor (acc * 60) := Int.floor_le_floor h1
      simp only [ihn, hfl]
      omega
    · rw [drainLoop, dif_neg hguard]
      push_neg at hguard
      have hlt : acc * 60 < 1 := by
        have : acc < 1 / 60 := hguard
        linarith
      have hfl : Int.floor (acc * 60) = 0 := by
        rw [Int.floor_eq_zero_iff]
        exact ⟨by positivity, hlt⟩
      refine ⟨by simp [hfl], h0, ?_⟩
      simpa [fixedStepSeconds] using hguard

/-- C9: a frame tick with prior accumulator 0 <= a < 1/60 and elapsed wall
time e >= 0 adds min(e, 0.25) to the accumulator, runs update (at the fixed
dt of 1/60) exactly floor((a + min(e, 0.25)) * 60) times, leaves the
accumulator in [0, 1/60), and renders exactly once. -/
theorem frame_fixed_step_spec (a e : ℚ) (h0 : 0 ≤ a) (h1 : a < fixedStepSeconds)
    (he : 0 ≤ e) :
    (frame a e).updates = (Int.floor ((a + min e maxAccumSeconds) * 60)).toNat ∧
    0 ≤ (frame a e).accumulator ∧ (frame a e).accumulator < fixedStepSeconds ∧
    (frame a e).renders = 1 := by
  have hacc : 0 ≤ a + min e maxAccumSeconds := by
    have : (0 : ℚ) ≤ min e maxAccumSeconds := le_min he (by norm_num [maxAccumSeconds])
    linarith
  obtain ⟨hn, hl, hr⟩ :=
    drainLoop_spec (Int.ceil ((a + min e maxAccumSeconds) * 60)).toNat
      (a + min e maxAccumSeconds) le_rfl hacc
  exact ⟨hn, hl, hr, rfl⟩

/-- Witness for the C9 theorem: a = 0, e = 1/30 runs exactly two updates. -/
theorem frame_fixed_step_spec_witness :
    (frame 0 (1 / 30)).updates =
      (Int.floor (((0 : ℚ) + min (1 / 30) maxAccumSeconds) * 60)).toNat ∧
    0 ≤ (frame 0 (1 / 30)).accumulator ∧
    (frame 0 (1 / 30)).accumulator < fixedStepSeconds ∧
    (frame 0 (1 / 30)).renders = 1 :=
  frame_fixed_step_spec 0 (1 / 30) le_rfl (by norm_num [fixedStepSeconds]) (by norm_num)

/-- C10 counterexample: on the zero vector the divisor falls back to 1 and
normalize returns the zero vector, which is not a unit vector — the claimed
fall-back to a default unit vector does not happen.  The oracle used here is
exact at the zero vector: Math.hypot(0,0) = 0. -/
theorem normalize_zero_not_unit :
    (mkCtx defaultSettings).hyp 0 0 = 0 ∧
    ((mkCtx defaultSettings).hyp 0 0) ^ 2 = (0 : ℚ) ^ 2 + (0 : ℚ) ^ 2 ∧
    normalize (mkCtx defaultSettings) ⟨0, 0⟩ = ⟨0, 0⟩ ∧
    ¬ ((normalize (mkCtx defaultSettings) ⟨0, 0⟩).x ^ 2 +
        (normalize (mkCtx defaultSettings) ⟨0, 0⟩).y ^ 2 = 1) := by
  refine ⟨rfl, by norm_num [mkCtx], ?_, ?_⟩
  · show Vec.mk _ _ = _
    simp [normalize, mkCtx]
  · simp [normalize, mkCtx]

/-- C10 (amended): direction normalization never divides by zero (the
divisor Math.hypot(v) || 1 is nonzero), the zero vector is mapped to the
zero vector (finite components, but not a unit vector), and every nonzero
vector is mapped to an exact unit vector.  The hypothesis states that the
hypot oracle is exact and non-negative at the input. -/
theorem normalize_no_nan_fallback (ctx : Ctx) (v : Vec)
    (hhyp : 0 ≤ ctx.hyp v.x v.y ∧ (ctx.hyp v.x v.y) ^ 2 = v.x ^ 2 + v.y ^ 2) :
    (if ctx.hyp v.x v.y = 0 then (1 : ℚ) else ctx.hyp v.x v.y) ≠ 0 ∧
    (v = ⟨0, 0⟩ → normalize ctx v = ⟨0, 0⟩) ∧
    (v ≠ ⟨0, 0⟩ →
      (normalize ctx v).x ^ 2 + (normalize ctx v).y ^ 2 = 1) := by
  obtain ⟨hpos, hsq⟩ := hhyp
  refine ⟨?_, ?_, ?_⟩
  · by_cases h : ctx.hyp v.x v.y = 0
    · simp [h]
    · simp [h]
  · intro hv
    subst hv
    have h0 : ctx.hyp (0 : ℚ) 0 = 0 := by
      have := hsq
      simp only at this
      nlinarith [this]
    show Vec.mk _ _ = _
    simp [normalize, h0]
  · intro hv
    obtain ⟨x, y⟩ := v
    have hxy : ¬ (x = 0 ∧ y = 0) := by
      intro hc
      exact hv (by simp [hc.1, hc.2])
    have hsum : 0 < x ^ 2 + y ^ 2 := by
      rcases lt_or_le 0 (x ^ 2 + y ^ 2) with h | h
      · exact h
      · exfalso
        have hx : x = 0 := by nlinarith [sq_nonneg x, sq_nonneg y]
        have hy : y = 0 := by nlinarith [sq_nonneg x, sq_nonneg y]
        exact hxy ⟨hx, hy⟩
    have hne : ctx.hyp x y ≠ 0 := by
      intro hz
      simp only at hsq
      rw [hz] at hsq
      nlinarith [hsum]
    simp only [normalize, hne, if_neg hne]
    simp only at hsq
    field_simp
    linarith [hsq]

/-- Witness for the amended C10 theorem at the 3-4-5 vector, where the exact
hypot is rational. -/
theorem normalize_no_nan_fallback_witness :
    (normalize { mkCtx defaultSettings with
        hyp := fun a b => if a = 3 ∧ b = 4 then 5 else 0 } ⟨3, 4⟩).x ^ 2 +
      (normalize { mkCtx defaultSettings with
        hyp := fun a b => if a = 3 ∧ b = 4 then 5 else 0 } ⟨3, 4⟩).y ^ 2 = 1 :=
  (normalize_no_nan_fallback _ ⟨3, 4⟩ ⟨by norm_num, by norm_num⟩).2.2 (by decide)

/-- C5: if the draft is active, 0 <= i <= 2 and option i exists, then
chooseDraftOption applies that option's effect exactly once, deactivates the
draft, clears the options and emits the draft-change / HUD / inventory
notifications, and any further call before the next level-up is a no-op;
in all other cases (inactive draft, out-of-range index, missing option) the
call leaves the engine unchanged and emits nothing. -/
theorem choose_draft_exactly_once (i : ℤ) (e : Engine) :
    (e.draftActive = true → 0 ≤ i → i ≤ 2 →
      ∀ opt, e.draftOptions.get? i.toNat = some opt →
        chooseDraftOption i e =
          ({e with
              world := (applyEffect opt.effect e.world e.inventory).1
              inventory := (applyEffect opt.effect e.world e.inventory).2
              draftActive := false
              draftOptions := []},
            [Emit.draftChange false [], Emit.hud, Emit.inventory]) ∧
        (chooseDraftOption i e).1.draftActive = false ∧
        (∀ j : ℤ, chooseDraftOption j (chooseDraftOption i e).1 =
          ((chooseDraftOption i e).1, []))) ∧
    ((e.draftActive = false ∨ i < 0 ∨ 2 < i ∨ e.draftOptions.get? i.toNat = none) →
      chooseDraftOption i e = (e, [])) := by
  constructor
  · intro hA h0 h2 opt hopt
    have hguard : ¬ (e.draftActive = false ∨ i < 0 ∨ 2 < i) := by
      push_neg
      refine ⟨by simp [hA], h0, h2⟩
    have heq : chooseDraftOption i e =
        ({e with
            world := (applyEffect opt.effect e.world e.inventory).1
            inventory := (applyEffect opt.effect e.world e.inventory).2
            draftActive := false
            draftOptions := []},
          [Emit.draftChange false [], Emit.hud, Emit.inventory]) := by
      rw [chooseDraftOption, if_neg hguard, hopt]
    refine ⟨heq, by rw [heq], ?_⟩
    intro j
    rw [heq]
    rw [chooseDraftOption, if_pos]
    left
    rfl
  · intro hno
    by_cases hguard : e.draftActive = false ∨ i < 0 ∨ 2 < i
    · rw [chooseDraftOption, if_pos hguard]
    · rw [chooseDraftOption, if_neg hguard]
      have hnone : e.draftOptions.get? i.toNat = none := by
        rcases hno with h | h | h | h
        · exact absurd (Or.inl h) hguard
        · exact absurd (Or.inr (Or.inl h)) hguard
        · exact absurd (Or.inr (Or.inr h)) hguard
        · exact h
      rw [hnone]

/-- Witness for the C5 theorem: choosing option 0 of an active one-option
draft applies the Max HP +15 effect and deactivates the draft. -/
theorem choose_draft_exactly_once_witness :
    chooseDraftOption 0
        {sampleEngine with
          draftActive := true
          draftOptions := [mkChoice "hp-15" Rarity.common (UpgradeEffect.addMaxHp 15)]} =
      ({{sampleEngine with
          draftActive := true
          draftOptions := [mkChoice "hp-15" Rarity.common (UpgradeEffect.addMaxHp 15)]} with
          world := (applyEffect (UpgradeEffect.addMaxHp 15)
            (createWorld 800 600) ([] : Inventory)).1
          inventory := (applyEffect (UpgradeEffect.addMaxHp 15)
            (createWorld 800 600) ([] : Inventory)).2
          draftActive := false
          draftOptions := []},
        [Emit.draftChange false [], Emit.hud, Emit.inventory]) :=
  ((choose_draft_exactly_once 0
      {sampleEngine with
        draftActive := true
        draftOptions := [mkChoice "hp-15" Rarity.common (UpgradeEffect.addMaxHp 15)]}).1
    rfl (by norm_num) (by norm_num)
    (mkChoice "hp-15" Rarity.common (UpgradeEffect.addMaxHp 15)) rfl).1

/-- Applying an upgrade effect never touches the simulation clock. -/
theorem applyEffect_elapsed (eff : UpgradeEffect) (w : World) (inv : Inventory) :
    (applyEffect eff w inv).1.elapsedSeconds = w.elapsedSeconds := by
  cases eff <;> rfl

/-- chooseDraftOption never touches the simulation clock. -/
theorem chooseDraftOption_elapsed (i : ℤ) (e : Engine) :
    (chooseDraftOption i e).1.world.elapsedSeconds = e.world.elapsedSeconds := by
  rw [chooseDraftOption]
  by_cases hguard : e.draftActive = false ∨ i < 0 ∨ 2 < i
  · rw [if_pos hguard]
  · rw [if_neg hguard]
    cases hopt : e.draftOptions.get? i.toNat with
    | none => rfl
    | some opt => exact applyEffect_elapsed opt.effect e.world e.inventory

/-- C6 counterexample: during a draft-active update step with no restart
intent, consuming the draft choice applies the chosen upgrade, so the player
state is not unchanged (here Max HP +15 raises maxHp from 100 to 115) —
the claim that the player is unchanged on every such step is false. -/
theorem update_draft_choice_changes_player :
    (update (mkCtx defaultSettings) []
        { pausePressed := false
          debugPressed := false
          restartMode := none
          freshSeed := 0
          draftChoice := some 0
          isPaused := false
          isGameOver := false } (1 / 60)
        {sampleEngine with
          draftActive := true
          draftOptions := [mkChoice "hp-15" Rarity.common
            (UpgradeEffect.addMaxHp 15)]}).1.world.player.maxHp = 115 ∧
    ({sampleEngine with
        draftActive := true
        draftOptions := [mkChoice "hp-15" Rarity.common
          (UpgradeEffect.addMaxHp 15)]} : Engine).world.player.maxHp = 100 ∧
    ({sampleEngine with
        draftActive := true
        draftOptions := [mkChoice "hp-15" Rarity.common
          (UpgradeEffect.addMaxHp 15)]} : Engine).draftActive = true := by
  refine ⟨?_, rfl, rfl⟩
  norm_num [update, chooseDraftOption, applyEffect, sampleEngine, mkChoice, createWorld]

/-- C6 (amended): during a draft-active update step with no restart intent
the result does not depend on the system list at all — no gameplay system
runs and elapsedSeconds is unchanged; the engine is left exactly as the
debug-toggle plus the consumed draft choice (a no-op when absent or invalid,
exactly one applied upgrade otherwise) leave it, and the debug emission to
the UI collaborators still occurs. -/
theorem update_draft_suspends_pipeline (ctx : Ctx) (systems : List Sys) (inp : Input)
    (dt : ℚ) (e : Engine) (hA : e.draftActive = true) (hR : inp.restartMode = none) :
    (update ctx systems inp dt e =
      (let e1 := if inp.debugPressed then {e with debugEnabled := !e.debugEnabled} else e
       let p3 := match inp.draftChoice with
         | some choice => chooseDraftOption choice e1
         | none => (e1, [])
       (p3.1, ([Emit.audioVolume ctx.settings.volume]
          ++ (if inp.pausePressed then [Emit.pauseToggle] else [])) ++ p3.2
          ++ [Emit.debug]))) ∧
    (update ctx systems inp dt e).1.world.elapsedSeconds = e.world.elapsedSeconds ∧
    Emit.debug ∈ (update ctx systems inp dt e).2 := by
  refine ⟨?_, ?_, ?_⟩
  · cases hd : inp.debugPressed <;> cases hc : inp.draftChoice <;>
      simp [update, hR, hd, hc, hA]
  · cases hd : inp.debugPressed <;> cases hc : inp.draftChoice <;>
      simp [update, hR, hd, hc, hA, chooseDraftOption_elapsed]
  · cases hd : inp.debugPressed <;> cases hc : inp.draftChoice <;>
      simp [update, hR, hd, hc, hA]

/-- Witness for the amended C6 theorem: a draft-active engine with no inputs
stays put while the debug snapshot is still emitted. -/
theorem update_draft_suspends_pipeline_witness :
    (update (mkCtx defaultSettings) []
        { pausePressed := false
          debugPressed := false
          restartMode := none
          freshSeed := 0
          draftChoice := none
          isPaused := false
          isGameOver := false } (1 / 60)
        {sampleEngine with draftActive := true}).1.world.elapsedSeconds =
      ({sampleEngine with draftActive := true} : Engine).world.elapsedSeconds :=
  (update_draft_suspends_pipeline (mkCtx defaultSettings) []
    { pausePressed := false
      debugPressed := false
      restartMode := none
      freshSeed := 0
      draftChoice := none
      isPaused := false
      isGameOver := false } (1 / 60)
    {sampleEngine with draftActive := true} rfl rfl).2.1

set_option maxHeartbeats 1000000 in
/-- Every raw candidate returned by the spawn loop — an accepted edge point
or the exact-radius fallback — is at squared distance at least 230^2 from
the player, provided the cos/sin oracle lies on the unit circle. -/
theorem spawnCandidateGo_safe (ctx : Ctx) (r : ℕ → ℚ) (width height px py : ℚ)
    (hcs : ∀ θ, (ctx.cosF θ) ^ 2 + (ctx.sinF θ) ^ 2 = 1) :
    ∀ (m attempt c : ℕ),
      40 - attempt ≤ m →
      safeSpawnRadius ^ 2 ≤
        ((spawnCandidateGo ctx r width height px py attempt c).1.1 - px) ^ 2 +
          ((spawnCandidateGo ctx r width height px py attempt c).1.2 - py) ^ 2 := by
  have hfall : ∀ c : ℕ,
      safeSpawnRadius ^ 2 ≤
        (px + ctx.cosF (r c * ctx.piF * 2) * safeSpawnRadius - px) ^ 2 +
          (py + ctx.sinF (r c * ctx.piF * 2) * safeSpawnRadius - py) ^ 2 := by
    intro c
    have h := hcs (r c * ctx.piF * 2)
    have hring :
        (px + ctx.cosF (r c * ctx.piF * 2) * safeSpawnRadius - px) ^ 2 +
          (py + ctx.sinF (r c * ctx.piF * 2) * safeSpawnRadius - py) ^ 2 =
        safeSpawnRadius ^ 2 *
          ((ctx.cosF (r c * ctx.piF * 2)) ^ 2 + (ctx.sinF (r c * ctx.piF * 2)) ^ 2) := by
      ring
    rw [hring, h, mul_one]
  intro m
  induction m with
  | zero =>
    intro attempt c hm
    have hge : ¬ attempt < 40 := by omega
    rw [spawnCandidateGo, dif_neg hge]
    exact hfall c
  | succ k ih =>
    intro attempt c hm
    by_cases hlt : attempt < 40
    · rw [spawnCandidateGo, dif_pos hlt]
      simp only
      set pt0 : ℚ × ℚ := edgePoint r width height c with hpt0
      by_cases hacc : hypGe (pt0.1 - px) (pt0.2 - py) safeSpawnRadius
      · rw [if_pos hacc]
        rcases hacc with hneg | hsq
        · exact absurd hneg (by norm_num [safeSpawnRadius])
        · exact hsq
      · rw [if_neg hacc]
        exact ih (attempt + 1) (c + 2) (by omega)
    · rw [spawnCandidateGo, dif_neg hlt]
      exact hfall c

set_option maxHeartbeats 1000000 in
/-- C3 (amended): the raw spawn candidate — the accepted arena-edge point or
the exact-radius fallback point — is always at squared distance at least
230^2 from the player, but Engine.findSpawnPoint returns that candidate
clamped per-axis into [10, width-10] x [10, height-10], and createEnemy /
createBoss place the new enemy at the clamped point; the clamp can move the
point closer than 230 to the player.  The hypothesis states that the
cos/sin oracle lies on the unit circle. -/
theorem spawn_candidate_safe (ctx : Ctx) (r : ℕ → ℚ) (w : World) (c : ℕ)
    (hcs : ∀ θ, (ctx.cosF θ) ^ 2 + (ctx.sinF θ) ^ 2 = 1) :
    safeSpawnRadius ^ 2 ≤
      ((findSpawnCandidate ctx r w c).1.1 - w.player.x) ^ 2 +
        ((findSpawnCandidate ctx r w c).1.2 - w.player.y) ^ 2 ∧
    (findSpawnPoint ctx r w c).1 =
      (clamp (findSpawnCandidate ctx r w c).1.1 10 (w.width - 10),
       clamp (findSpawnCandidate ctx r w c).1.2 10 (w.height - 10)) ∧
    (∀ danger forced c0,
      (createEnemy ctx r w danger forced c0).1.x = (findSpawnPoint ctx r w (c0 + 1)).1.1 ∧
      (createEnemy ctx r w danger forced c0).1.y = (findSpawnPoint ctx r w (c0 + 1)).1.2) ∧
    (∀ c0, (createBoss ctx r w c0).1.x = (findSpawnPoint ctx r w c0).1.1 ∧
      (createBoss ctx r w c0).1.y = (findSpawnPoint ctx r w c0).1.2) := by
  refine ⟨?_, rfl, fun danger forced c0 => ⟨rfl, rfl⟩, fun c0 => ⟨rfl, rfl⟩⟩
  exact spawnCandidateGo_safe ctx r w.width w.height w.player.x w.player.y hcs 40 0 c
    (by omega)

/-- Witness for the amended C3 theorem with the trivial unit-circle oracle
(cos = 1, sin = 0). -/
theorem spawn_candidate_safe_witness :
    safeSpawnRadius ^ 2 ≤
      ((findSpawnCandidate (mkCtx defaultSettings) (fun _ => 0) (createWorld 800 600) 0).1.1 -
          (createWorld 800 600).player.x) ^ 2 +
        ((findSpawnCandidate (mkCtx defaultSettings) (fun _ => 0) (createWorld 800 600) 0).1.2 -
          (createWorld 800 600).player.y) ^ 2 :=
  (spawn_candidate_safe (mkCtx defaultSettings) (fun _ => 0) (createWorld 800 600) 0
    (fun θ => by norm_num [mkCtx])).1

set_option maxHeartbeats 1000000 in
/-- C3 counterexample: with the player near the left arena edge, an accepted
edge candidate (-30, 527) at distance sqrt(53293) >= 230 from the player at
(12, 300) is clamped to (10, 527), whose squared distance 51533 to the
player is below 230^2 = 52900 — the created enemy spawns strictly inside
the safe-spawn radius. -/
theorem spawn_point_clamped_inside_safe_radius :
    ((createEnemy (mkCtx defaultSettings)
        (fun n => if n = 1 then 0 else if n = 2 then 527 / 600 else 1 / 2)
        {createWorld 800 600 with
          player := {(createWorld 800 600).player with x := 12, y := 300}}
        0 none 0).1.x = 10) ∧
    ((createEnemy (mkCtx defaultSettings)
        (fun n => if n = 1 then 0 else if n = 2 then 527 / 600 else 1 / 2)
        {createWorld 800 600 with
          player := {(createWorld 800 600).player with x := 12, y := 300}}
        0 none 0).1.y = 527) ∧
    ((10 : ℚ) - 12) ^ 2 + ((527 : ℚ) - 300) ^ 2 < safeSpawnRadius ^ 2 := by
  have hgo : spawnCandidateGo (mkCtx defaultSettings)
      (fun n => if n = 1 then 0 else if n = 2 then 527 / 600 else 1 / 2)
      800 600 12 300 0 1 = ((-30, 527), 3) := by
    rw [spawnCandidateGo, dif_pos (by norm_num : (0 : ℕ) < 40)]
    norm_num [edgePoint, hypGe, safeSpawnRadius]
  have hcand : findSpawnCandidate (mkCtx defaultSettings)
      (fun n => if n = 1 then 0 else if n = 2 then 527 / 600 else 1 / 2)
      {createWorld 800 600 with
        player := {(createWorld 800 600).player with x := 12, y := 300}} 1 =
      ((-30, 527), 3) := by
    rw [findSpawnCandidate]
    norm_num [createWorld]
    exact hgo
  have hfsp : (findSpawnPoint (mkCtx defaultSettings)
      (fun n => if n = 1 then 0 else if n = 2 then 527 / 600 else 1 / 2)
      {createWorld 800 600 with
        player := {(createWorld 800 600).player with x := 12, y := 300}} 1).1 =
      ((10 : ℚ), (527 : ℚ)) := by
    rw [findSpawnPoint]
    simp only [hcand]
    norm_num [clamp, createWorld]
  refine ⟨?_, ?_, by norm_num [safeSpawnRadius]⟩
  · have hglue : (createEnemy (mkCtx defaultSettings)
        (fun n => if n = 1 then 0 else if n = 2 then 527 / 600 else 1 / 2)
        {createWorld 800 600 with
          player := {(createWorld 800 600).player with x := 12, y := 300}}
        0 none 0).1.x =
        (findSpawnPoint (mkCtx defaultSettings)
          (fun n => if n = 1 then 0 else if n = 2 then 527 / 600 else 1 / 2)
          {createWorld 800 600 with
            player := {(createWorld 800 600).player with x := 12, y := 300}} 1).1.1 := rfl
    rw [hglue, hfsp]
  · have hglue : (createEnemy (mkCtx defaultSettings)
        (fun n => if n = 1 then 0 else if n = 2 then 527 / 600 else 1 / 2)
        {createWorld 800 600 with
          player := {(createWorld 800 600).player with x := 12, y := 300}}
        0 none 0).1.y =
        (findSpawnPoint (mkCtx defaultSettings)
          (fun n => if n = 1 then 0 else if n = 2 then 527 / 600 else 1 / 2)
          {createWorld 800 600 with
            player := {(createWorld 800 600).player with x := 12, y := 300}} 1).1.2 := rfl
    rw [hglue, hfsp]


/-- The particle-spawn inner loop changes nothing of the world but the
particle list. -/
theorem spawnParticlesGo_only_particles (ctx : Ctx) (r : ℕ → ℚ) (x y : ℚ)
    (kind : ParticleKind) :
    ∀ (n : ℕ) (w : World) (c : ℕ), ∃ ps,
      (spawnParticlesGo ctx r x y kind n w c).1 = {w with particles := ps} := by
  intro n
  induction n with
  | zero =>
    intro w c
    rw [spawnParticlesGo]
    exact ⟨w.particles, rfl⟩
  | succ m ih =>
    intro w c
    rw [spawnParticlesGo, dif_neg (Nat.succ_ne_zero m)]
    by_cases hfull : maxParticles ≤ w.particles.length
    · rw [if_pos hfull]
      exact ⟨w.particles, rfl⟩
    · rw [if_neg hfull]
      simp only [Nat.add_sub_cancel]
      exact ih _ _

/-- Engine.spawnParticles changes nothing of the world but the particle
list, for any settings (in particular under reduce-motion throttling). -/
theorem spawnParticles_only_particles_aux (ctx : Ctx) (r : ℕ → ℚ) (x y : ℚ)
    (kind : ParticleKind) (count : ℕ) (w : World) (c : ℕ) :
    ∃ ps, (spawnParticles ctx r x y kind count w c).1 = {w with particles := ps} := by
  rw [spawnParticles]
  exact spawnParticlesGo_only_particles ctx r x y kind _ w c

/-- startDraft does not touch the world. -/
theorem startDraft_world (e : Engine) : (startDraft e).1.world = e.world := rfl

/-- startDraft activates the draft. -/
theorem startDraft_active (e : Engine) : (startDraft e).1.draftActive = true := rfl

/-- One full iteration of the level-up loop, in the case where a single
level-up suffices: xp is reduced by the old threshold, the level is bumped,
the threshold is recomputed and the draft is active. -/
theorem levelLoopE_step (e : Engine)
    (h1 : (e.world.xpToNext : ℚ) ≤ e.world.xp) (h2 : 0 < e.world.xpToNext)
    (h3 : e.world.xp - e.world.xpToNext < (nextThreshold e.world.xpToNext : ℚ)) :
    (levelLoopE e).1.world.xp = e.world.xp - e.world.xpToNext ∧
    (levelLoopE e).1.world.level = e.world.level + 1 ∧
    (levelLoopE e).1.world.xpToNext = nextThreshold e.world.xpToNext ∧
    (levelLoopE e).1.draftActive = true := by
  rw [levelLoopE, dif_pos ⟨h1, h2⟩]
  simp only
  rw [levelLoopE]
  rw [dif_neg]
  · exact ⟨rfl, rfl, rfl, rfl⟩
  · intro hc
    obtain ⟨ha, _⟩ := hc
    rw [startDraft_world] at ha
    simp only at ha
    exact absurd ha (not_le.mpr h3)

/-- C8: the level-up threshold rule Math.ceil(xpToNext * 1.3 + 4) is
strictly increasing, so xpToNext strictly increases across consecutive
level-ups; and collecting a value-5 pickup at xp = 8, xpToNext = 10 fires
exactly one level-up, leaving xp = 3, level 2, xpToNext = 17 and an active
draft. -/
theorem leveling_monotone_and_scenario :
    (∀ n : ℕ, n < nextThreshold n) ∧
    ((collectPickup (mkCtx defaultSettings)
        {sampleEngine with world := {sampleEngine.world with xp := 8}}
        100 100 5).1.world.xp = 3 ∧
      (collectPickup (mkCtx defaultSettings)
        {sampleEngine with world := {sampleEngine.world with xp := 8}}
        100 100 5).1.world.level = 2 ∧
      (collectPickup (mkCtx defaultSettings)
        {sampleEngine with world := {sampleEngine.world with xp := 8}}
        100 100 5).1.world.xpToNext = 17 ∧
      (collectPickup (mkCtx defaultSettings)
        {sampleEngine with world := {sampleEngine.world with xp := 8}}
        100 100 5).1.draftActive = true) := by
  constructor
  · intro n
    have hlt : (n : ℚ) < (n : ℚ) * 13 / 10 + 4 := by
      have hn : (0 : ℚ) ≤ (n : ℚ) := Nat.cast_nonneg n
      linarith
    have := Nat.lt_ceil.mpr hlt
    simpa [nextThreshold] using this
  · rw [collectPickup]
    simp only
    obtain ⟨ps, hps⟩ := spawnParticles_only_particles_aux (mkCtx defaultSettings)
      ({sampleEngine with world := {sampleEngine.world with xp := 8}} : Engine).stream
      100 100 ParticleKind.xp 3
      {({sampleEngine with world := {sampleEngine.world with xp := 8}} : Engine).world with
        xp := ({sampleEngine with world := {sampleEngine.world with xp := 8}} :
          Engine).world.xp + 5}
      ({sampleEngine with world := {sampleEngine.world with xp := 8}} : Engine).cursor
    set P := spawnParticles (mkCtx defaultSettings)
      ({sampleEngine with world := {sampleEngine.world with xp := 8}} : Engine).stream
      100 100 ParticleKind.xp 3
      {({sampleEngine with world := {sampleEngine.world with xp := 8}} : Engine).world with
        xp := ({sampleEngine with world := {sampleEngine.world with xp := 8}} :
          Engine).world.xp + 5}
      ({sampleEngine with world := {sampleEngine.world with xp := 8}} : Engine).cursor
      with hP
    have hxp : P.1.xp = 13 := by
      rw [hps]
      norm_num [sampleEngine, createWorld]
    have hlvl : P.1.level = 1 := by
      rw [hps]
      norm_num [sampleEngine, createWorld]
    have hnext : P.1.xpToNext = 10 := by
      rw [hps]
      norm_num [sampleEngine, createWorld]
    have h17 : nextThreshold 10 = 17 := by
      rw [nextThreshold]
      norm_num
    have hstep := levelLoopE_step
      {({sampleEngine with world := {sampleEngine.world with xp := 8}} : Engine) with
        world := P.1, cursor := P.2}
      (by simp only [hxp, hnext]; norm_num)
      (by simp only [hnext]; norm_num)
      (by simp only [hxp, hnext, h17]; norm_num)
    obtain ⟨hs1, hs2, hs3, hs4⟩ := hstep
    simp only [hxp, hnext, hlvl, h17] at hs1 hs2 hs3
    refine ⟨?_, ?_, ?_, hs4⟩
    · rw [hs1]; norm_num
    · rw [hs2]
    · exact hs3

/-- The enemy damage relation is reflexive. -/
theorem enemiesLe_refl (l : List EnemyState) : EnemiesLe l l :=
  fun e he => ⟨e, he, rfl, le_refl _⟩

/-- The enemy damage relation is transitive. -/
theorem enemiesLe_trans {a b c : List EnemyState}
    (h1 : EnemiesLe a b) (h2 : EnemiesLe b c) : EnemiesLe a c := by
  intro e2 he2
  obtain ⟨eb, hb, hm, hh⟩ := h2 e2 he2
  obtain ⟨ea, ha, hm2, hh2⟩ := h1 eb hb
  exact ⟨ea, ha, hm.trans hm2, hh.trans hh2⟩

/-- A fold whose every step only damages enemies only damages enemies. -/
theorem foldlSaw_le {α : Type} (f : List EnemyState → α → List EnemyState) :
    ∀ (l : List α) (es : List EnemyState),
      (∀ es2 s, s ∈ l → EnemiesLe es2 (f es2 s)) →
      EnemiesLe es (List.foldl f es l) := by
  intro l
  induction l with
  | nil => intro es _ e2 he2; exact ⟨e2, he2, rfl, le_refl _⟩
  | cons s rest ih =>
    intro es h
    simp only [List.foldl_cons]
    exact enemiesLe_trans (h es s (List.mem_cons_self s rest))
      (ih (f es s) fun es2 t ht => h es2 t (List.mem_cons_of_mem s ht))

/-- One saw pass over the enemy list only lowers hp (never below-board: it
subtracts a nonnegative amount) and leaves maxHp alone. -/
theorem sawHitEnemies_le (dt sawX sawY sawRadius dmg : ℚ)
    (hdt : 0 ≤ dt) (hd : 0 ≤ dmg) (es : List EnemyState) :
    EnemiesLe es (sawHitEnemies dt sawX sawY sawRadius dmg es) := by
  intro e2 he2
  obtain ⟨e, he, heq⟩ := List.mem_map.mp he2
  have heq2 : (if hypGt (e.x - sawX) (e.y - sawY) (e.radius + sawRadius) then e
      else {e with hp := e.hp - dmg * dt * 4}) = e2 := heq
  by_cases hmiss : hypGt (e.x - sawX) (e.y - sawY) (e.radius + sawRadius)
  · rw [if_pos hmiss] at heq2
    subst heq2
    exact ⟨e, he, rfl, le_refl _⟩
  · rw [if_neg hmiss] at heq2
    subst heq2
    have h3 : 0 ≤ dmg * dt * 4 := by positivity
    exact ⟨e, he, rfl, sub_le_self _ h3⟩

/-- The saw phase only damages enemies. -/
theorem sawPhase_le (ctx : Ctx) (dt : ℚ) (w : World) (hdt : 0 ≤ dt)
    (hs : ∀ s ∈ w.sawBlades, 0 ≤ s.damage) :
    EnemiesLe w.enemies (sawPhase ctx dt w).enemies := by
  show EnemiesLe w.enemies (List.foldl (fun es (saw : OrbitingSaw) =>
    sawHitEnemies dt
      (w.player.x + ctx.cosF saw.angle * saw.orbitRadius)
      (w.player.y + ctx.sinF saw.angle * saw.orbitRadius)
      saw.radius saw.damage es) w.enemies w.sawBlades)
  exact foldlSaw_le _ w.sawBlades w.enemies
    fun es2 s hs2 => sawHitEnemies_le _ _ _ _ _ hdt (hs s hs2) es2

/-- The saw phase does not touch the player. -/
theorem sawPhase_player (ctx : Ctx) (dt : ℚ) (w : World) :
    (sawPhase ctx dt w).player = w.player := rfl

/-- The saw phase does not touch the mines. -/
theorem sawPhase_mines (ctx : Ctx) (dt : ℚ) (w : World) :
    (sawPhase ctx dt w).mines = w.mines := rfl

/-- The saw phase does not touch the player projectiles. -/
theorem sawPhase_playerProjectiles (ctx : Ctx) (dt : ℚ) (w : World) :
    (sawPhase ctx dt w).playerProjectiles = w.playerProjectiles := rfl

/-- The saw phase does not touch the enemy projectiles. -/
theorem sawPhase_enemyProjectiles (ctx : Ctx) (dt : ℚ) (w : World) :
    (sawPhase ctx dt w).enemyProjectiles = w.enemyProjectiles := rfl

/-- spawnParticles leaves the player alone. -/
theorem spawnParticles_fst_player (ctx : Ctx) (r : ℕ → ℚ) (x y : ℚ)
    (kind : ParticleKind) (count : ℕ) (w : World) (c : ℕ) :
    (spawnParticles ctx r x y kind count w c).1.player = w.player := by
  obtain ⟨ps, hps⟩ := spawnParticles_only_particles_aux ctx r x y kind count w c
  rw [hps]

/-- spawnParticles leaves the enemies alone. -/
theorem spawnParticles_fst_enemies (ctx : Ctx) (r : ℕ → ℚ) (x y : ℚ)
    (kind : ParticleKind) (count : ℕ) (w : World) (c : ℕ) :
    (spawnParticles ctx r x y kind count w c).1.enemies = w.enemies := by
  obtain ⟨ps, hps⟩ := spawnParticles_only_particles_aux ctx r x y kind count w c
  rw [hps]

/-- spawnParticles leaves the player projectiles alone. -/
theorem spawnParticles_fst_playerProjectiles (ctx : Ctx) (r : ℕ → ℚ) (x y : ℚ)
    (kind : ParticleKind) (count : ℕ) (w : World) (c : ℕ) :
    (spawnParticles ctx r x y kind count w c).1.playerProjectiles = w.playerProjectiles := by
  obtain ⟨ps, hps⟩ := spawnParticles_only_particles_aux ctx r x y kind count w c
  rw [hps]

/-- spawnParticles leaves the enemy projectiles alone. -/
theorem spawnParticles_fst_enemyProjectiles (ctx : Ctx) (r : ℕ → ℚ) (x y : ℚ)
    (kind : ParticleKind) (count : ℕ) (w : World) (c : ℕ) :
    (spawnParticles ctx r x y kind count w c).1.enemyProjectiles = w.enemyProjectiles := by
  obtain ⟨ps, hps⟩ := spawnParticles_only_particles_aux ctx r x y kind count w c
  rw [hps]

/-- spawnParticles leaves the mines alone. -/
theorem spawnParticles_fst_mines (ctx : Ctx) (r : ℕ → ℚ) (x y : ℚ)
    (kind : ParticleKind) (count : ℕ) (w : World) (c : ℕ) :
    (spawnParticles ctx r x y kind count w c).1.mines = w.mines := by
  obtain ⟨ps, hps⟩ := spawnParticles_only_particles_aux ctx r x y kind count w c
  rw [hps]

/-- spawnParticles leaves the scrap alone. -/
theorem spawnParticles_fst_scrap (ctx : Ctx) (r : ℕ → ℚ) (x y : ℚ)
    (kind : ParticleKind) (count : ℕ) (w : World) (c : ℕ) :
    (spawnParticles ctx r x y kind count w c).1.scrap = w.scrap := by
  obtain ⟨ps, hps⟩ := spawnParticles_only_particles_aux ctx r x y kind count w c
  rw [hps]

/-- spawnParticles leaves the weapon alone. -/
theorem spawnParticles_fst_weapon (ctx : Ctx) (r : ℕ → ℚ) (x y : ℚ)
    (kind : ParticleKind) (count : ℕ) (w : World) (c : ℕ) :
    (spawnParticles ctx r x y kind count w c).1.weapon = w.weapon := by
  obtain ⟨ps, hps⟩ := spawnParticles_only_particles_aux ctx r x y kind count w c
  rw [hps]

/-- applyPlayerHit keeps the player hp within [0, previous hp], preserves
maxHp and does not touch enemies or projectiles, whenever the raw damage is
nonnegative. -/
theorem applyPlayerHit_spec (ctx : Ctx) (w : World) (raw sdx sdy : ℚ)
    (h0 : 0 ≤ w.player.hp) (hraw : 0 ≤ raw) :
    0 ≤ (applyPlayerHit ctx w raw sdx sdy).player.hp ∧
    (applyPlayerHit ctx w raw sdx sdy).player.hp ≤ w.player.hp ∧
    (applyPlayerHit ctx w raw sdx sdy).player.maxHp = w.player.maxHp ∧
    (applyPlayerHit ctx w raw sdx sdy).enemies = w.enemies ∧
    (applyPlayerHit ctx w raw sdx sdy).playerProjectiles = w.playerProjectiles ∧
    (applyPlayerHit ctx w raw sdx sdy).enemyProjectiles = w.enemyProjectiles := by
  rw [applyPlayerHit]
  by_cases hcase : 0 < w.player.invulnRemaining ∨ w.player.hp ≤ 0
  · rw [if_pos hcase]
    exact ⟨h0, le_refl _, rfl, rfl, rfl, rfl⟩
  · rw [if_neg hcase]
    have hgs : (0 : ℚ) ≤ (if 0 < w.playerGraceRemaining then (7 : ℚ) / 20 else 1) := by
      split <;> norm_num
    refine ⟨?_, ?_, rfl, rfl, rfl, rfl⟩
    · show (0 : ℚ) ≤ max 0 (w.player.hp -
        raw * (if 0 < w.playerGraceRemaining then (7 : ℚ) / 20 else 1))
      exact le_max_left 0 _
    · show max 0 (w.player.hp -
        raw * (if 0 < w.playerGraceRemaining then (7 : ℚ) / 20 else 1)) ≤ w.player.hp
      exact max_le h0 (sub_le_self _ (mul_nonneg hraw hgs))

/-- A mine blast with nonnegative damage and positive blast radius only
lowers enemy hp: inside the blast the linear falloff factor stays at least
9/20, so the subtracted amount is nonnegative. -/
theorem mineBlast_le (ctx : Ctx) (mine : Mine)
    (hd : 0 ≤ mine.damage) (hb : 0 < mine.blastRadius) (es : List EnemyState) :
    EnemiesLe es (es.map fun e =>
      if mine.blastRadius < ctx.hyp (e.x - mine.x) (e.y - mine.y) then e
      else {e with hp := e.hp -
        mine.damage * (1 - ctx.hyp (e.x - mine.x) (e.y - mine.y) / mine.blastRadius * (11 / 20))}) := by
  intro e2 he2
  obtain ⟨e, he, heq⟩ := List.mem_map.mp he2
  have heq2 : (if mine.blastRadius < ctx.hyp (e.x - mine.x) (e.y - mine.y) then e
      else {e with hp := e.hp -
        mine.damage * (1 - ctx.hyp (e.x - mine.x) (e.y - mine.y) / mine.blastRadius * (11 / 20))}) = e2 := heq
  by_cases hlt : mine.blastRadius < ctx.hyp (e.x - mine.x) (e.y - mine.y)
  · rw [if_pos hlt] at heq2
    subst heq2
    exact ⟨e, he, rfl, le_refl _⟩
  · rw [if_neg hlt] at heq2
    subst heq2
    push_neg at hlt
    have hr : ctx.hyp (e.x - mine.x) (e.y - mine.y) / mine.blastRadius ≤ 1 :=
      (div_le_one hb).mpr hlt
    have h2 : ctx.hyp (e.x - mine.x) (e.y - mine.y) / mine.blastRadius * (11 / 20) ≤ 11 / 20 := by
      nlinarith
    have h3 : 0 ≤ mine.damage *
        (1 - ctx.hyp (e.x - mine.x) (e.y - mine.y) / mine.blastRadius * (11 / 20)) :=
      mul_nonneg hd (by linarith)
    exact ⟨e, he, rfl, sub_le_self _ h3⟩

/-- The mine loop only damages enemies and leaves the player and both
projectile lists alone. -/
theorem mineGo_spec (ctx : Ctx) (r : ℕ → ℚ) :
    ∀ (l : List Mine) (w : World) (c : ℕ),
      (∀ m ∈ l, 0 ≤ m.damage ∧ 0 < m.blastRadius) →
      EnemiesLe w.enemies (mineGo ctx r l w c).1.enemies ∧
      (mineGo ctx r l w c).1.player = w.player ∧
      (mineGo ctx r l w c).1.playerProjectiles = w.playerProjectiles ∧
      (mineGo ctx r l w c).1.enemyProjectiles = w.enemyProjectiles := by
  intro l
  induction l with
  | nil =>
    intro w c _
    rw [mineGo]
    exact ⟨enemiesLe_refl _, rfl, rfl, rfl⟩
  | cons mine rest ih =>
    intro w c h
    have hm := h mine (List.mem_cons_self _ _)
    have hrest : ∀ m ∈ rest, 0 ≤ m.damage ∧ 0 < m.blastRadius :=
      fun m hm2 => h m (List.mem_cons_of_mem _ hm2)
    simp only [mineGo]
    by_cases h1 : 0 < mine.armTime
    · rw [if_pos h1]
      exact ih w c hrest
    rw [if_neg h1]
    by_cases h2 : ¬ ∃ e ∈ w.enemies, hypLe (e.x - mine.x) (e.y - mine.y) (e.radius + mine.radius)
    · rw [if_pos h2]
      exact ih w c hrest
    rw [if_neg h2]
    · have H := ih
        (spawnParticles ctx r mine.x mine.y ParticleKind.bloom 28
          {w with
            mines := w.mines.filter fun m => m.id ≠ mine.id
            enemies := w.enemies.map fun e =>
              if mine.blastRadius < ctx.hyp (e.x - mine.x) (e.y - mine.y) then e
              else {e with hp := e.hp -
                mine.damage * (1 - ctx.hyp (e.x - mine.x) (e.y - mine.y) / mine.blastRadius * (11 / 20))}
            hitBursts := w.hitBursts ++ [⟨mine.x, mine.y, 0, 13 / 50, mine.blastRadius * (11 / 20)⟩]}
          c).1
        (spawnParticles ctx r mine.x mine.y ParticleKind.bloom 28
          {w with
            mines := w.mines.filter fun m => m.id ≠ mine.id
            enemies := w.enemies.map fun e =>
              if mine.blastRadius < ctx.hyp (e.x - mine.x) (e.y - mine.y) then e
              else {e with hp := e.hp -
                mine.damage * (1 - ctx.hyp (e.x - mine.x) (e.y - mine.y) / mine.blastRadius * (11 / 20))}
            hitBursts := w.hitBursts ++ [⟨mine.x, mine.y, 0, 13 / 50, mine.blastRadius * (11 / 20)⟩]}
          c).2 hrest
      refine ⟨enemiesLe_trans ?_ H.1, H.2.1.trans ?_, H.2.2.1.trans ?_, H.2.2.2.trans ?_⟩
      · rw [spawnParticles_fst_enemies]
        exact mineBlast_le ctx mine hm.1 hm.2 w.enemies
      · rw [spawnParticles_fst_player]
      · rw [spawnParticles_fst_playerProjectiles]
      · rw [spawnParticles_fst_enemyProjectiles]

/-- Extending both lists with damaged-or-equal heads preserves the damage
relation. -/
theorem enemiesLe_cons (e e2 : EnemyState) (l l2 : List EnemyState)
    (he : e2.maxHp = e.maxHp ∧ e2.hp ≤ e.hp) (h : EnemiesLe l l2) :
    EnemiesLe (e :: l) (e2 :: l2) := by
  intro x hx
  rcases List.mem_cons.mp hx with rfl | hx2
  · exact ⟨e, List.mem_cons_self e l, he.1, he.2⟩
  · obtain ⟨a, ha, h3⟩ := h x hx2
    exact ⟨a, List.mem_cons_of_mem _ ha, h3⟩

/-- Replacing the enemy at an index by a damaged copy of a list member
preserves the damage relation. -/
theorem enemiesLe_set (l : List EnemyState) (i : ℕ) (e e1 : EnemyState)
    (he : e ∈ l) (h : e1.maxHp = e.maxHp ∧ e1.hp ≤ e.hp) :
    EnemiesLe l (l.set i e1) := by
  intro x hx
  rcases List.mem_or_eq_of_mem_set hx with hx2 | rfl
  · exact ⟨x, hx2, rfl, le_refl _⟩
  · exact ⟨e, he, h.1, h.2⟩

/-- The contact sweep only damages the player (never below zero, never
raising hp or maxHp), leaves the world's enemy list and both projectile
lists alone, and returns an enemy list that differs from its input only in
contact cooldowns. -/
theorem contactGo_spec (ctx : Ctx) :
    ∀ (l : List EnemyState) (w : World), 0 ≤ w.player.hp →
      0 ≤ (contactGo ctx w l).1.player.hp ∧
      (contactGo ctx w l).1.player.hp ≤ w.player.hp ∧
      (contactGo ctx w l).1.player.maxHp = w.player.maxHp ∧
      (contactGo ctx w l).1.enemies = w.enemies ∧
      (contactGo ctx w l).1.playerProjectiles = w.playerProjectiles ∧
      (contactGo ctx w l).1.enemyProjectiles = w.enemyProjectiles ∧
      EnemiesLe l (contactGo ctx w l).2 := by
  intro l
  induction l with
  | nil =>
    intro w h0
    rw [contactGo]
    exact ⟨h0, le_refl _, rfl, rfl, rfl, rfl, fun x hx => absurd hx (List.not_mem_nil x)⟩
  | cons e rest ih =>
    intro w h0
    simp only [contactGo]
    by_cases h1 : 0 < e.contactCooldown
    · rw [if_pos h1]
      have H := ih w h0
      exact ⟨H.1, H.2.1, H.2.2.1, H.2.2.2.1, H.2.2.2.2.1, H.2.2.2.2.2.1,
        enemiesLe_cons e e rest _ ⟨rfl, le_refl _⟩ H.2.2.2.2.2.2⟩
    rw [if_neg h1]
    by_cases h2 : hypGe (w.player.x - e.x) (w.player.y - e.y) (w.player.radius + e.radius)
    · rw [if_pos h2]
      have H := ih w h0
      exact ⟨H.1, H.2.1, H.2.2.1, H.2.2.2.1, H.2.2.2.2.1, H.2.2.2.2.2.1,
        enemiesLe_cons e e rest _ ⟨rfl, le_refl _⟩ H.2.2.2.2.2.2⟩
    rw [if_neg h2]
    have hraw : (0 : ℚ) ≤ (if e.isBoss then (28 : ℚ) else if e.type = EnemyType.ram then 24 else 14) := by
      split_ifs <;> norm_num
    have hA := applyPlayerHit_spec ctx w
      (if e.isBoss then (28 : ℚ) else if e.type = EnemyType.ram then 24 else 14)
      (w.player.x - e.x) (w.player.y - e.y) h0 hraw
    have H := ih (applyPlayerHit ctx w
      (if e.isBoss then (28 : ℚ) else if e.type = EnemyType.ram then 24 else 14)
      (w.player.x - e.x) (w.player.y - e.y)) hA.1
    exact ⟨H.1, H.2.1.trans hA.2.1, H.2.2.1.trans hA.2.2.1, H.2.2.2.1.trans hA.2.2.2.1,
      H.2.2.2.2.1.trans hA.2.2.2.2.1, H.2.2.2.2.2.1.trans hA.2.2.2.2.2,
      enemiesLe_cons e _ rest _ ⟨rfl, le_refl _⟩ H.2.2.2.2.2.2⟩

/-- The enemy-projectile sweep only damages the player (never below zero),
and leaves the enemies and player projectiles alone. -/
theorem enemyProjGo_spec (ctx : Ctx) :
    ∀ (l : List EnemyProjectile) (w : World), 0 ≤ w.player.hp →
      0 ≤ (enemyProjGo ctx w l).1.player.hp ∧
      (enemyProjGo ctx w l).1.player.hp ≤ w.player.hp ∧
      (enemyProjGo ctx w l).1.player.maxHp = w.player.maxHp ∧
      (enemyProjGo ctx w l).1.enemies = w.enemies ∧
      (enemyProjGo ctx w l).1.playerProjectiles = w.playerProjectiles := by
  intro l
  induction l with
  | nil =>
    intro w h0
    rw [enemyProjGo]
    exact ⟨h0, le_refl _, rfl, rfl, rfl⟩
  | cons p rest ih =>
    intro w h0
    simp only [enemyProjGo]
    have H := ih w h0
    by_cases hg : hypGe ((enemyProjGo ctx w rest).1.player.x - p.x)
      ((enemyProjGo ctx w rest).1.player.y - p.y)
      ((enemyProjGo ctx w rest).1.player.radius + p.radius)
    · rw [if_pos hg]
      exact H
    · rw [if_neg hg]
      have hA := applyPlayerHit_spec ctx (enemyProjGo ctx w rest).1 10
        ((enemyProjGo ctx w rest).1.player.x - p.x)
        ((enemyProjGo ctx w rest).1.player.y - p.y) H.1 (by norm_num)
      exact ⟨hA.1, hA.2.1.trans H.2.1, hA.2.2.1.trans H.2.2.1,
        hA.2.2.2.1.trans H.2.2.2.1, hA.2.2.2.2.1.trans H.2.2.2.2⟩

/-- The first-hit scan only returns enemies of the scanned list. -/
theorem firstHitIndex_mem (p : PlayerProjectile) :
    ∀ (l : List EnemyState) (i j : ℕ) (e : EnemyState),
      firstHitIndex p l i = some (j, e) → e ∈ l := by
  intro l
  induction l with
  | nil =>
    intro i j e h
    rw [firstHitIndex] at h
    exact Option.noConfusion h
  | cons a rest ih =>
    intro i j e h
    simp only [firstHitIndex] at h
    by_cases h1 : a.id ∈ p.hitEnemyIds
    · rw [if_pos h1] at h
      exact List.mem_cons_of_mem _ (ih _ _ _ h)
    rw [if_neg h1] at h
    by_cases h2 : hypGt (a.x - p.x) (a.y - p.y) (a.radius + p.radius)
    · rw [if_pos h2] at h
      exact List.mem_cons_of_mem _ (ih _ _ _ h)
    · rw [if_neg h2] at h
      simp only [Option.some.injEq, Prod.mk.injEq] at h
      obtain ⟨h4, h5⟩ := h
      subst h5
      exact List.mem_cons_self a rest

/-- Resolving one projectile hit only damages the hit enemy (which must be
a member of the enemy list) and leaves the player and the world's
player-projectile list alone. -/
theorem hitResolve_spec (ctx : Ctx) (r : ℕ → ℚ) (st : CombatSt) (p : PlayerProjectile)
    (i : ℕ) (e : EnemyState) (he : e ∈ st.world.enemies) (hd : 0 ≤ p.damage) :
    EnemiesLe st.world.enemies (hitResolve ctx r st p i e).1.world.enemies ∧
    (hitResolve ctx r st p i e).1.world.player = st.world.player ∧
    (hitResolve ctx r st p i e).1.world.playerProjectiles = st.world.playerProjectiles := by
  simp only [hitResolve]
  obtain ⟨ps, hps⟩ := spawnParticles_only_particles_aux ctx r e.x e.y ParticleKind.spark
    (if r st.cursor < p.critChance then 12 else 6)
    {st.world with
      enemies := st.world.enemies.set i
        {e with
          hp := e.hp - p.damage * (if r st.cursor < p.critChance then 9 / 5 else 1)
          vx := e.vx + (normalize ctx ⟨e.x - p.x, e.y - p.y⟩).x * p.knockback
          vy := e.vy + (normalize ctx ⟨e.x - p.x, e.y - p.y⟩).y * p.knockback}
      hitBursts := st.world.hitBursts ++ [⟨e.x, e.y, 0, 1 / 5, 26⟩]}
    (st.cursor + 1)
  rw [hps]
  have hfac : (0 : ℚ) ≤ (if r st.cursor < p.critChance then (9 : ℚ) / 5 else 1) := by
    split <;> norm_num
  have hset : EnemiesLe st.world.enemies (st.world.enemies.set i
      {e with
        hp := e.hp - p.damage * (if r st.cursor < p.critChance then 9 / 5 else 1)
        vx := e.vx + (normalize ctx ⟨e.x - p.x, e.y - p.y⟩).x * p.knockback
        vy := e.vy + (normalize ctx ⟨e.x - p.x, e.y - p.y⟩).y * p.knockback}) :=
    enemiesLe_set _ i e _ he ⟨rfl, sub_le_self _ (mul_nonneg hd hfac)⟩
  by_cases hsd : ctx.settings.showDamageText
  · rw [if_pos hsd]
    exact ⟨hset, rfl, rfl⟩
  · rw [if_neg hsd]
    exact ⟨hset, rfl, rfl⟩

/-- The player-projectile sweep only damages enemies already in the list and
leaves the player and the world's projectile list alone, provided every
projectile has nonnegative damage. -/
theorem projGo_spec (ctx : Ctx) (r : ℕ → ℚ) :
    ∀ (l : List PlayerProjectile) (st : CombatSt),
      (∀ p ∈ l, 0 ≤ p.damage) →
      EnemiesLe st.world.enemies (projGo ctx r l st).1.world.enemies ∧
      (projGo ctx r l st).1.world.player = st.world.player ∧
      (projGo ctx r l st).1.world.playerProjectiles = st.world.playerProjectiles := by
  intro l
  induction l with
  | nil =>
    intro st _
    rw [projGo]
    exact ⟨enemiesLe_refl _, rfl, rfl⟩
  | cons p rest ih =>
    intro st h
    have hp0 := h p (List.mem_cons_self _ _)
    have hrest : ∀ a ∈ rest, 0 ≤ a.damage := fun a ha => h a (List.mem_cons_of_mem _ ha)
    simp only [projGo]
    split
    · exact ih st hrest
    · next i e heq =>
      have hmem := firstHitIndex_mem p st.world.enemies 0 i e heq
      have hR := hitResolve_spec ctx r st p i e hmem hp0
      have H := ih (hitResolve ctx r st p i e).1 hrest
      exact ⟨enemiesLe_trans hR.1 H.1, H.2.1.trans hR.2.1, H.2.2.trans hR.2.2⟩

/-- The scrap-drop loop does not touch enemies, player or projectiles and
only appends to the scrap list. -/
theorem spawnScrapGo_spec (ctx : Ctx) (r : ℕ → ℚ) (x y v : ℚ) :
    ∀ (n : ℕ) (w : World) (c : ℕ),
      (spawnScrapGo ctx r x y v n w c).1.enemies = w.enemies ∧
      (spawnScrapGo ctx r x y v n w c).1.player = w.player ∧
      (spawnScrapGo ctx r x y v n w c).1.playerProjectiles = w.playerProjectiles ∧
      ∀ s ∈ w.scrap, s ∈ (spawnScrapGo ctx r x y v n w c).1.scrap := by
  intro n
  induction n with
  | zero =>
    intro w c
    rw [spawnScrapGo]
    exact ⟨rfl, rfl, rfl, fun s hs => hs⟩
  | succ m ih =>
    intro w c
    rw [spawnScrapGo, dif_neg (Nat.succ_ne_zero m)]
    simp only [Nat.add_sub_cancel]
    have H := ih {w with
      scrap := w.scrap ++ [⟨w.nextPickupId, x, y, ctx.cosF (r c) * (60 + r (c + 1) * 60),
        ctx.sinF (r c) * (60 + r (c + 1) * 60), 5, v, 18⟩]
      nextPickupId := w.nextPickupId + 1} (c + 2)
    exact ⟨H.1, H.2.1, H.2.2.1, fun s hs => H.2.2.2 s (List.mem_append_left _ hs)⟩

/-- spawnScrap preserves enemies, player and projectiles, keeps all previous
scrap, and adds at least one pickup carrying the defeated enemy's position
and scrap value (the drop count is always positive). -/
theorem spawnScrap_spec (ctx : Ctx) (r : ℕ → ℚ) (e : EnemyState) (w : World) (c : ℕ) :
    (spawnScrap ctx r e w c).1.enemies = w.enemies ∧
    (spawnScrap ctx r e w c).1.player = w.player ∧
    (spawnScrap ctx r e w c).1.playerProjectiles = w.playerProjectiles ∧
    (∀ s ∈ w.scrap, s ∈ (spawnScrap ctx r e w c).1.scrap) ∧
    ∃ s ∈ (spawnScrap ctx r e w c).1.scrap, s.x = e.x ∧ s.y = e.y ∧ s.value = scrapValueOf e := by
  have hn : scrapDropCount e ≠ 0 := by
    rw [scrapDropCount]
    split_ifs <;> norm_num
  rw [spawnScrap, spawnScrapGo, dif_neg hn]
  have H := spawnScrapGo_spec ctx r e.x e.y (scrapValueOf e) (scrapDropCount e - 1)
    {w with
      scrap := w.scrap ++ [⟨w.nextPickupId, e.x, e.y, ctx.cosF (r c) * (60 + r (c + 1) * 60),
        ctx.sinF (r c) * (60 + r (c + 1) * 60), 5, scrapValueOf e, 18⟩]
      nextPickupId := w.nextPickupId + 1} (c + 2)
  refine ⟨H.1, H.2.1, H.2.2.1, fun s hs => H.2.2.2 s (List.mem_append_left _ hs), ?_⟩
  exact ⟨⟨w.nextPickupId, e.x, e.y, ctx.cosF (r c) * (60 + r (c + 1) * 60),
      ctx.sinF (r c) * (60 + r (c + 1) * 60), 5, scrapValueOf e, 18⟩,
    H.2.2.2 _ (List.mem_append_right _ (List.mem_singleton_self _)), rfl, rfl, rfl⟩

/-- Continuation step of the defeat sweep after one defeated enemy: the
bookkeeping world update must preserve enemies, player, player projectiles
and scrap for the chain to go through. -/
theorem sweepCont_spec (ctx : Ctx) (r : ℕ → ℚ) (e : EnemyState) (rest : List EnemyState)
    (w w2 : World) (c : ℕ)
    (he2 : w2.enemies = w.enemies) (hpl : w2.player = w.player)
    (hpp : w2.playerProjectiles = w.playerProjectiles) (hsc : w2.scrap = w.scrap)
    (ih : ∀ (w3 : World) (c3 : ℕ),
      (sweepGo ctx r rest w3 c3).1.enemies = w3.enemies ∧
      (sweepGo ctx r rest w3 c3).1.player = w3.player ∧
      (sweepGo ctx r rest w3 c3).1.playerProjectiles = w3.playerProjectiles ∧
      (∀ s ∈ w3.scrap, s ∈ (sweepGo ctx r rest w3 c3).1.scrap) ∧
      ∀ e3 ∈ rest, e3.hp ≤ 0 →
        ∃ s ∈ (sweepGo ctx r rest w3 c3).1.scrap,
          s.x = e3.x ∧ s.y = e3.y ∧ s.value = scrapValueOf e3) :
    (sweepGo ctx r rest (spawnScrap ctx r e w2 c).1 (spawnScrap ctx r e w2 c).2).1.enemies = w.enemies ∧
    (sweepGo ctx r rest (spawnScrap ctx r e w2 c).1 (spawnScrap ctx r e w2 c).2).1.player = w.player ∧
    (sweepGo ctx r rest (spawnScrap ctx r e w2 c).1 (spawnScrap ctx r e w2 c).2).1.playerProjectiles = w.playerProjectiles ∧
    (∀ s ∈ w.scrap,
      s ∈ (sweepGo ctx r rest (spawnScrap ctx r e w2 c).1 (spawnScrap ctx r e w2 c).2).1.scrap) ∧
    ∀ e3 ∈ e :: rest, e3.hp ≤ 0 →
      ∃ s ∈ (sweepGo ctx r rest (spawnScrap ctx r e w2 c).1 (spawnScrap ctx r e w2 c).2).1.scrap,
        s.x = e3.x ∧ s.y = e3.y ∧ s.value = scrapValueOf e3 := by
  have hS := spawnScrap_spec ctx r e w2 c
  have H := ih (spawnScrap ctx r e w2 c).1 (spawnScrap ctx r e w2 c).2
  refine ⟨H.1.trans (hS.1.trans he2), H.2.1.trans (hS.2.1.trans hpl),
    H.2.2.1.trans (hS.2.2.1.trans hpp), ?_, ?_⟩
  · intro s hs
    have hs2 : s ∈ w2.scrap := by rw [hsc]; exact hs
    exact H.2.2.2.1 s (hS.2.2.2.1 s hs2)
  · intro e3 he3 hdead3
    rcases List.mem_cons.mp he3 with rfl | hmem
    · obtain ⟨s, hsmem, hsx, hsy, hsv⟩ := hS.2.2.2.2
      exact ⟨s, H.2.2.2.1 s hsmem, hsx, hsy, hsv⟩
    · exact H.2.2.2.2 e3 hmem hdead3

/-- The defeat sweep does not touch the enemy list, the player or the player
projectiles, only appends scrap, and spawns scrap at the position and with
the scrap value of every defeated enemy of the swept snapshot. -/
theorem sweepGo_spec (ctx : Ctx) (r : ℕ → ℚ) :
    ∀ (l : List EnemyState) (w : World) (c : ℕ),
      (sweepGo ctx r l w c).1.enemies = w.enemies ∧
      (sweepGo ctx r l w c).1.player = w.player ∧
      (sweepGo ctx r l w c).1.playerProjectiles = w.playerProjectiles ∧
      (∀ s ∈ w.scrap, s ∈ (sweepGo ctx r l w c).1.scrap) ∧
      ∀ e ∈ l, e.hp ≤ 0 →
        ∃ s ∈ (sweepGo ctx r l w c).1.scrap, s.x = e.x ∧ s.y = e.y ∧ s.value = scrapValueOf e := by
  intro l
  induction l with
  | nil =>
    intro w c
    rw [sweepGo]
    exact ⟨rfl, rfl, rfl, fun s hs => hs, fun e he => absurd he (List.not_mem_nil e)⟩
  | cons e rest ih =>
    intro w c
    simp only [sweepGo]
    by_cases hdead : e.hp ≤ 0
    · rw [if_pos hdead]
      by_cases hboss : e.isBoss
      · rw [if_pos hboss]
        exact sweepCont_spec ctx r e rest w _ c rfl rfl rfl rfl ih
      · rw [if_neg hboss]
        exact sweepCont_spec ctx r e rest w _ c rfl rfl rfl rfl ih
    · rw [if_neg hdead]
      have H := ih w c
      refine ⟨H.1, H.2.1, H.2.2.1, H.2.2.2.1, ?_⟩
      intro e3 he3 hdead3
      rcases List.mem_cons.mp he3 with rfl | hmem
      · exact absurd hdead3 hdead
      · exact H.2.2.2.2 e3 hmem hdead3

/-- Engine.combatSystem's defeat sweep: defeated enemies are filtered out
only after their scrap has been spawned, and the player is untouched. -/
theorem defeatSweep_spec (ctx : Ctx) (r : ℕ → ℚ) (w : World) (c : ℕ) :
    (defeatSweep ctx r w c).1.enemies = w.enemies.filter (fun e => 0 < e.hp) ∧
    (defeatSweep ctx r w c).1.player = w.player ∧
    (defeatSweep ctx r w c).1.playerProjectiles = w.playerProjectiles ∧
    ∀ e ∈ w.enemies, e.hp ≤ 0 →
      ∃ s ∈ (defeatSweep ctx r w c).1.scrap, s.x = e.x ∧ s.y = e.y ∧ s.value = scrapValueOf e := by
  have H := sweepGo_spec ctx r w.enemies w c
  refine ⟨?_, ?_, ?_, ?_⟩
  · show (sweepGo ctx r w.enemies w c).1.enemies.filter (fun e => 0 < e.hp) =
      w.enemies.filter (fun e => 0 < e.hp)
    rw [H.1]
  · exact H.2.1
  · exact H.2.2.1
  · exact H.2.2.2.2

/-- C4: Over one combatSystem step with nonnegative dt, a player hp within
[0, maxHp], enemies within their maxHp, and nonnegative saw, mine and
projectile damage (mines with positive blast radius), the player's hp stays
within [0, maxHp]; every enemy still present at the end of the step has
0 < hp <= maxHp; and the defeat sweep removes exactly the enemies with
hp <= 0 in the same step, after spawning scrap at each defeated enemy's
position with that enemy's scrap value. -/
theorem combat_hp_bounds_and_defeat_sweep (ctx : Ctx) (r : ℕ → ℚ) (dt : ℚ) (st : CombatSt)
    (hdt : 0 ≤ dt)
    (hp0 : 0 ≤ st.world.player.hp)
    (hp1 : st.world.player.hp ≤ st.world.player.maxHp)
    (hene : ∀ e ∈ st.world.enemies, e.hp ≤ e.maxHp)
    (hsaw : ∀ s ∈ st.world.sawBlades, 0 ≤ s.damage)
    (hmine : ∀ m ∈ st.world.mines, 0 ≤ m.damage ∧ 0 < m.blastRadius)
    (hproj : ∀ p ∈ st.world.playerProjectiles, 0 ≤ p.damage) :
    (0 ≤ (combatSystem ctx r dt st).world.player.hp ∧
      (combatSystem ctx r dt st).world.player.hp ≤ (combatSystem ctx r dt st).world.player.maxHp) ∧
    (∀ e ∈ (combatSystem ctx r dt st).world.enemies, 0 < e.hp ∧ e.hp ≤ e.maxHp) ∧
    (∀ (w : World) (c : ℕ),
      (defeatSweep ctx r w c).1.enemies = w.enemies.filter fun e => 0 < e.hp) ∧
    (∀ (w : World) (c : ℕ), ∀ e ∈ w.enemies, e.hp ≤ 0 →
      ∃ s ∈ (defeatSweep ctx r w c).1.scrap, s.x = e.x ∧ s.y = e.y ∧ s.value = scrapValueOf e) := by
  set w0 : World := {st.world with
    playerGraceRemaining := max 0 (st.world.playerGraceRemaining - dt)
    playerFlashRemaining := max 0 (st.world.playerFlashRemaining - dt)} with hw0
  set w1 : World := sawPhase ctx dt w0 with hw1
  set q2 : World × ℕ := minePhase ctx r w1 st.cursor with hq2
  set w3 : World := contactPhase ctx q2.1 with hw3
  set w4 : World := enemyProjPhase ctx w3 with hw4
  set st5 : CombatSt := projPhase ctx r ⟨w4, st.hitStop, q2.2⟩ with hst5
  set q6 : World × ℕ := defeatSweep ctx r st5.world st5.cursor with hq6
  have hsaw0 : ∀ s ∈ w0.sawBlades, 0 ≤ s.damage := hsaw
  have hA : EnemiesLe st.world.enemies w1.enemies := sawPhase_le ctx dt w0 hdt hsaw0
  have hmine1 : ∀ m ∈ w1.mines, 0 ≤ m.damage ∧ 0 < m.blastRadius := hmine
  have hM := mineGo_spec ctx r w1.mines w1 st.cursor hmine1
  have hpq2 : q2.1.player = st.world.player := hM.2.1
  have hppq2 : q2.1.playerProjectiles = st.world.playerProjectiles := hM.2.2.1
  have hEq2 : EnemiesLe w1.enemies q2.1.enemies := hM.1
  have h0q2 : 0 ≤ q2.1.player.hp := by rw [hpq2]; exact hp0
  have hC := contactGo_spec ctx q2.1.enemies q2.1 h0q2
  have h0w3 : 0 ≤ w3.player.hp := hC.1
  have hpw3 : w3.player.hp ≤ q2.1.player.hp := hC.2.1
  have hmaxw3 : w3.player.maxHp = q2.1.player.maxHp := hC.2.2.1
  have hppw3 : w3.playerProjectiles = q2.1.playerProjectiles := hC.2.2.2.2.1
  have hEw3 : EnemiesLe q2.1.enemies w3.enemies := hC.2.2.2.2.2.2
  have hE := enemyProjGo_spec ctx w3.enemyProjectiles w3 h0w3
  have h0w4 : 0 ≤ w4.player.hp := hE.1
  have hpw4 : w4.player.hp ≤ w3.player.hp := hE.2.1
  have hmaxw4 : w4.player.maxHp = w3.player.maxHp := hE.2.2.1
  have hEw4 : w4.enemies = w3.enemies := hE.2.2.2.1
  have hppw4 : w4.playerProjectiles = w3.playerProjectiles := hE.2.2.2.2
  have hppchain : w4.playerProjectiles = st.world.playerProjectiles :=
    hppw4.trans (hppw3.trans hppq2)
  have hproj4 : ∀ p ∈ w4.playerProjectiles, 0 ≤ p.damage := by
    rw [hppchain]; exact hproj
  have hP := projGo_spec ctx r w4.playerProjectiles ⟨w4, st.hitStop, q2.2⟩ hproj4
  have hpst5 : st5.world.player = w4.player := hP.2.1
  have hEst5 : EnemiesLe w4.enemies st5.world.enemies := hP.1
  have hD := defeatSweep_spec ctx r st5.world st5.cursor
  have hfp : (combatSystem ctx r dt st).world.player = w4.player := hD.2.1.trans hP.2.1
  have hle : w4.player.hp ≤ st.world.player.hp := by
    have h9 := hpw4.trans hpw3
    rwa [hpq2] at h9
  have hmax : w4.player.maxHp = st.world.player.maxHp := by
    have h9 := hmaxw4.trans hmaxw3
    rwa [hpq2] at h9
  have hEw4L : EnemiesLe q2.1.enemies w4.enemies := by rw [hEw4]; exact hEw3
  have hchainE : EnemiesLe st.world.enemies st5.world.enemies :=
    enemiesLe_trans (enemiesLe_trans (enemiesLe_trans hA hEq2) hEw4L) hEst5
  refine ⟨⟨?_, ?_⟩, ?_, fun w c => (defeatSweep_spec ctx r w c).1,
    fun w c => (defeatSweep_spec ctx r w c).2.2.2⟩
  · rw [hfp]
    exact h0w4
  · rw [hfp]
    exact le_trans (hle.trans hp1) (le_of_eq hmax.symm)
  · intro e hefin
    have hefin2 : e ∈ q6.1.enemies := hefin
    rw [hD.1] at hefin2
    have hm2 := List.mem_filter.mp hefin2
    have hpos : 0 < e.hp := by simpa using hm2.2
    refine ⟨hpos, ?_⟩
    obtain ⟨e0, he0, hmaxeq, hple⟩ := hchainE e hm2.1
    exact hple.trans ((hene e0 he0).trans (le_of_eq hmaxeq.symm))

/-- Witness: on a freshly created empty arena the combat step keeps the
player hp nonnegative and all conclusions of the bounds theorem hold. -/
theorem combat_hp_bounds_and_defeat_sweep_witness :
    0 ≤ (combatSystem (mkCtx defaultSettings) (fun _ => 0) (1 / 60)
      ⟨createWorld 800 600, 0, 0⟩).world.player.hp := by
  have h := combat_hp_bounds_and_defeat_sweep (mkCtx defaultSettings) (fun _ => 0) (1 / 60)
    ⟨createWorld 800 600, 0, 0⟩ (by norm_num)
    (by norm_num [createWorld]) (by norm_num [createWorld])
    (by simp [createWorld]) (by simp [createWorld]) (by simp [createWorld])
    (by simp [createWorld])
  exact h.1.1

/-- hitResolve never changes the equipped weapon. -/
theorem hitResolve_weapon (ctx : Ctx) (r : ℕ → ℚ) (st : CombatSt) (p : PlayerProjectile)
    (i : ℕ) (e : EnemyState) :
    (hitResolve ctx r st p i e).1.world.weapon = st.world.weapon := by
  simp only [hitResolve]
  obtain ⟨ps, hps⟩ := spawnParticles_only_particles_aux ctx r e.x e.y ParticleKind.spark
    (if r st.cursor < p.critChance then 12 else 6)
    {st.world with
      enemies := st.world.enemies.set i
        {e with
          hp := e.hp - p.damage * (if r st.cursor < p.critChance then 9 / 5 else 1)
          vx := e.vx + (normalize ctx ⟨e.x - p.x, e.y - p.y⟩).x * p.knockback
          vy := e.vy + (normalize ctx ⟨e.x - p.x, e.y - p.y⟩).y * p.knockback}
      hitBursts := st.world.hitBursts ++ [⟨e.x, e.y, 0, 1 / 5, 26⟩]}
    (st.cursor + 1)
  rw [hps]
  by_cases hsd : ctx.settings.showDamageText
  · rw [if_pos hsd]
  · rw [if_neg hsd]

/-- The enemy list after hitResolve: the hit enemy is replaced in place by
its damaged, knocked-back copy. -/
theorem hitResolve_enemies (ctx : Ctx) (r : ℕ → ℚ) (st : CombatSt) (p : PlayerProjectile)
    (i : ℕ) (e : EnemyState) :
    (hitResolve ctx r st p i e).1.world.enemies =
      st.world.enemies.set i
        {e with
          hp := e.hp - p.damage * (if r st.cursor < p.critChance then 9 / 5 else 1)
          vx := e.vx + (normalize ctx ⟨e.x - p.x, e.y - p.y⟩).x * p.knockback
          vy := e.vy + (normalize ctx ⟨e.x - p.x, e.y - p.y⟩).y * p.knockback} := by
  simp only [hitResolve]
  obtain ⟨ps, hps⟩ := spawnParticles_only_particles_aux ctx r e.x e.y ParticleKind.spark
    (if r st.cursor < p.critChance then 12 else 6)
    {st.world with
      enemies := st.world.enemies.set i
        {e with
          hp := e.hp - p.damage * (if r st.cursor < p.critChance then 9 / 5 else 1)
          vx := e.vx + (normalize ctx ⟨e.x - p.x, e.y - p.y⟩).x * p.knockback
          vy := e.vy + (normalize ctx ⟨e.x - p.x, e.y - p.y⟩).y * p.knockback}
      hitBursts := st.world.hitBursts ++ [⟨e.x, e.y, 0, 1 / 5, 26⟩]}
    (st.cursor + 1)
  rw [hps]
  by_cases hsd : ctx.settings.showDamageText
  · rw [if_pos hsd]
  · rw [if_neg hsd]

set_option maxHeartbeats 1000000 in
/-- The projectile returned by hitResolve, written as an explicit budget
computation over the chain retarget scan: record the hit, optionally
retarget along the chain, then decrement pierce or expire. -/
theorem hitResolve_snd_eq (ctx : Ctx) (r : ℕ → ℚ) (st : CombatSt) (p : PlayerProjectile)
    (i : ℕ) (e : EnemyState) :
    (hitResolve ctx r st p i e).2 =
      (if (0 : ℚ) <
          (if (0 : ℚ) < p.chainRemaining then
            match findNearestEnemyInRange e.x e.y 170
                ((hitResolve ctx r st p i e).1.world.enemies.filter fun other =>
                  other.id ≠ e.id ∧ other.id ∉ p.hitEnemyIds ++ [e.id] ∧ 0 < other.hp) with
            | some nxt =>
              {p with
                hitEnemyIds := p.hitEnemyIds ++ [e.id]
                vx := (normalize ctx ⟨nxt.x - e.x, nxt.y - e.y⟩).x *
                  (hitResolve ctx r st p i e).1.world.weapon.projectileSpeed
                vy := (normalize ctx ⟨nxt.x - e.x, nxt.y - e.y⟩).y *
                  (hitResolve ctx r st p i e).1.world.weapon.projectileSpeed
                chainRemaining := p.chainRemaining - 1}
            | none => {p with hitEnemyIds := p.hitEnemyIds ++ [e.id]}
          else {p with hitEnemyIds := p.hitEnemyIds ++ [e.id]}).pierceRemaining
      then
        {(if (0 : ℚ) < p.chainRemaining then
            match findNearestEnemyInRange e.x e.y 170
                ((hitResolve ctx r st p i e).1.world.enemies.filter fun other =>
                  other.id ≠ e.id ∧ other.id ∉ p.hitEnemyIds ++ [e.id] ∧ 0 < other.hp) with
            | some nxt =>
              {p with
                hitEnemyIds := p.hitEnemyIds ++ [e.id]
                vx := (normalize ctx ⟨nxt.x - e.x, nxt.y - e.y⟩).x *
                  (hitResolve ctx r st p i e).1.world.weapon.projectileSpeed
                vy := (normalize ctx ⟨nxt.x - e.x, nxt.y - e.y⟩).y *
                  (hitResolve ctx r st p i e).1.world.weapon.projectileSpeed
                chainRemaining := p.chainRemaining - 1}
            | none => {p with hitEnemyIds := p.hitEnemyIds ++ [e.id]}
          else {p with hitEnemyIds := p.hitEnemyIds ++ [e.id]}) with
          pierceRemaining :=
            (if (0 : ℚ) < p.chainRemaining then
              match findNearestEnemyInRange e.x e.y 170
                  ((hitResolve ctx r st p i e).1.world.enemies.filter fun other =>
                    other.id ≠ e.id ∧ other.id ∉ p.hitEnemyIds ++ [e.id] ∧ 0 < other.hp) with
              | some nxt =>
                {p with
                  hitEnemyIds := p.hitEnemyIds ++ [e.id]
                  vx := (normalize ctx ⟨nxt.x - e.x, nxt.y - e.y⟩).x *
                    (hitResolve ctx r st p i e).1.world.weapon.projectileSpeed
                  vy := (normalize ctx ⟨nxt.x - e.x, nxt.y - e.y⟩).y *
                    (hitResolve ctx r st p i e).1.world.weapon.projectileSpeed
                  chainRemaining := p.chainRemaining - 1}
              | none => {p with hitEnemyIds := p.hitEnemyIds ++ [e.id]}
            else {p with hitEnemyIds := p.hitEnemyIds ++ [e.id]}).pierceRemaining - 1}
      else
        {(if (0 : ℚ) < p.chainRemaining then
            match findNearestEnemyInRange e.x e.y 170
                ((hitResolve ctx r st p i e).1.world.enemies.filter fun other =>
                  other.id ≠ e.id ∧ other.id ∉ p.hitEnemyIds ++ [e.id] ∧ 0 < other.hp) with
            | some nxt =>
              {p with
                hitEnemyIds := p.hitEnemyIds ++ [e.id]
                vx := (normalize ctx ⟨nxt.x - e.x, nxt.y - e.y⟩).x *
                  (hitResolve ctx r st p i e).1.world.weapon.projectileSpeed
                vy := (normalize ctx ⟨nxt.x - e.x, nxt.y - e.y⟩).y *
                  (hitResolve ctx r st p i e).1.world.weapon.projectileSpeed
                chainRemaining := p.chainRemaining - 1}
            | none => {p with hitEnemyIds := p.hitEnemyIds ++ [e.id]}
          else {p with hitEnemyIds := p.hitEnemyIds ++ [e.id]}) with life := 0}) := rfl

/-- C7 (amended): When a player projectile hits an enemy, the enemy id is
recorded; the projectile survives the hit if and only if its pierce budget
was positive before the hit (in which case pierce is decremented), and it
expires (life set to 0) whenever pierce was exhausted, regardless of any
chain retarget.  Independently, if the chain budget is positive and the
retarget scan finds a nearest not-yet-hit living enemy within range 170,
the chain budget is decremented and the velocity is redirected toward that
enemy at weapon projectile speed; otherwise chain and velocity are
unchanged.  The weapon itself is untouched. -/
theorem projectile_hit_budget_rules (ctx : Ctx) (r : ℕ → ℚ) (st : CombatSt)
    (p : PlayerProjectile) (i : ℕ) (e : EnemyState) :
    (hitResolve ctx r st p i e).2.hitEnemyIds = p.hitEnemyIds ++ [e.id] ∧
    (hitResolve ctx r st p i e).2.life = (if (0 : ℚ) < p.pierceRemaining then p.life else 0) ∧
    ((0 : ℚ) < p.pierceRemaining →
      (hitResolve ctx r st p i e).2.pierceRemaining = p.pierceRemaining - 1) ∧
    (¬ (0 : ℚ) < p.chainRemaining →
      (hitResolve ctx r st p i e).2.chainRemaining = p.chainRemaining ∧
      (hitResolve ctx r st p i e).2.vx = p.vx ∧
      (hitResolve ctx r st p i e).2.vy = p.vy) ∧
    ((0 : ℚ) < p.chainRemaining →
      match findNearestEnemyInRange e.x e.y 170
          ((hitResolve ctx r st p i e).1.world.enemies.filter fun other =>
            other.id ≠ e.id ∧ other.id ∉ p.hitEnemyIds ++ [e.id] ∧ 0 < other.hp) with
      | some nxt =>
        (hitResolve ctx r st p i e).2.chainRemaining = p.chainRemaining - 1 ∧
        (hitResolve ctx r st p i e).2.vx =
          (normalize ctx ⟨nxt.x - e.x, nxt.y - e.y⟩).x * st.world.weapon.projectileSpeed ∧
        (hitResolve ctx r st p i e).2.vy =
          (normalize ctx ⟨nxt.x - e.x, nxt.y - e.y⟩).y * st.world.weapon.projectileSpeed
      | none =>
        (hitResolve ctx r st p i e).2.chainRemaining = p.chainRemaining ∧
        (hitResolve ctx r st p i e).2.vx = p.vx ∧
        (hitResolve ctx r st p i e).2.vy = p.vy) ∧
    (hitResolve ctx r st p i e).1.world.weapon = st.world.weapon := by
  have hsnd := hitResolve_snd_eq ctx r st p i e
  rw [hsnd, hitResolve_weapon ctx r st p i e]
  by_cases hchain : (0 : ℚ) < p.chainRemaining
  · rw [if_pos hchain]
    cases hfind : findNearestEnemyInRange e.x e.y 170
        ((hitResolve ctx r st p i e).1.world.enemies.filter fun other =>
          other.id ≠ e.id ∧ other.id ∉ p.hitEnemyIds ++ [e.id] ∧ 0 < other.hp) with
    | some nxt =>
      dsimp only
      by_cases hpierce : (0 : ℚ) < p.pierceRemaining
      · rw [if_pos hpierce, if_pos hpierce]
        exact ⟨rfl, rfl, fun _ => rfl, fun h => absurd hchain h, fun _ => ⟨rfl, rfl, rfl⟩, rfl⟩
      · rw [if_neg hpierce, if_neg hpierce]
        exact ⟨rfl, rfl, fun h => absurd h hpierce, fun h => absurd hchain h,
          fun _ => ⟨rfl, rfl, rfl⟩, rfl⟩
    | none =>
      dsimp only
      by_cases hpierce : (0 : ℚ) < p.pierceRemaining
      · rw [if_pos hpierce, if_pos hpierce]
        exact ⟨rfl, rfl, fun _ => rfl, fun h => absurd hchain h, fun _ => ⟨rfl, rfl, rfl⟩, rfl⟩
      · rw [if_neg hpierce, if_neg hpierce]
        exact ⟨rfl, rfl, fun h => absurd h hpierce, fun h => absurd hchain h,
          fun _ => ⟨rfl, rfl, rfl⟩, rfl⟩
  · rw [if_neg hchain]
    dsimp only
    by_cases hpierce : (0 : ℚ) < p.pierceRemaining
    · rw [if_pos hpierce, if_pos hpierce]
      exact ⟨rfl, rfl, fun _ => rfl, fun _ => ⟨rfl, rfl, rfl⟩, fun h => absurd h hchain, rfl⟩
    · rw [if_neg hpierce, if_neg hpierce]
      exact ⟨rfl, rfl, fun h => absurd h hpierce, fun _ => ⟨rfl, rfl, rfl⟩,
        fun h => absurd h hchain, rfl⟩

/-- Witness: a pierce-2, chain-0 projectile hitting an enemy survives with
pierce decremented to 1 and its chain budget and life untouched. -/
theorem projectile_hit_budget_rules_witness :
    (hitResolve (mkCtx defaultSettings) (fun _ => 1 / 2) ⟨createWorld 800 600, 0, 0⟩
      (mkProjectile 1 0 0 2 0 0) 0 (mkEnemy 1 5 5 10 50)).2.pierceRemaining = 1 ∧
    (hitResolve (mkCtx defaultSettings) (fun _ => 1 / 2) ⟨createWorld 800 600, 0, 0⟩
      (mkProjectile 1 0 0 2 0 0) 0 (mkEnemy 1 5 5 10 50)).2.chainRemaining = 0 ∧
    (hitResolve (mkCtx defaultSettings) (fun _ => 1 / 2) ⟨createWorld 800 600, 0, 0⟩
      (mkProjectile 1 0 0 2 0 0) 0 (mkEnemy 1 5 5 10 50)).2.life = 1 := by
  have h := projectile_hit_budget_rules (mkCtx defaultSettings) (fun _ => 1 / 2)
    ⟨createWorld 800 600, 0, 0⟩ (mkProjectile 1 0 0 2 0 0) 0 (mkEnemy 1 5 5 10 50)
  refine ⟨?_, ?_, ?_⟩
  · have h3 := h.2.2.1 (by norm_num [mkProjectile])
    rw [h3]
    norm_num [mkProjectile]
  · have h4 := h.2.2.2.1 (by norm_num [mkProjectile])
    rw [h4.1]
    norm_num [mkProjectile]
  · rw [h.2.1]
    norm_num [mkProjectile]

/-- A pierce-exhausted (pierce 0, chain 1) projectile hitting an enemy with
another living enemy 100 units away: the chain retarget IS available and is
consumed (chain decremented to 0, velocity redirected toward the new target
at projectile speed 520), yet the projectile still expires (life = 0),
because expiry depends only on the pierce budget. -/
theorem chain_retarget_cannot_save_expired_projectile :
    (hitResolve chainCtx (fun _ => 1 / 2) ⟨chainWorld, 0, 0⟩ (mkProjectile 11 0 0 0 1 0) 0
      (mkEnemy 1 0 0 10 100)).2.life = 0 ∧
    (hitResolve chainCtx (fun _ => 1 / 2) ⟨chainWorld, 0, 0⟩ (mkProjectile 11 0 0 0 1 0) 0
      (mkEnemy 1 0 0 10 100)).2.chainRemaining = 0 ∧
    (hitResolve chainCtx (fun _ => 1 / 2) ⟨chainWorld, 0, 0⟩ (mkProjectile 11 0 0 0 1 0) 0
      (mkEnemy 1 0 0 10 100)).2.vx = 520 ∧
    (hitResolve chainCtx (fun _ => 1 / 2) ⟨chainWorld, 0, 0⟩ (mkProjectile 11 0 0 0 1 0) 0
      (mkEnemy 1 0 0 10 100)).2.vy = 0 ∧
    (mkProjectile 11 0 0 0 1 0).pierceRemaining = 0 ∧
    (mkProjectile 11 0 0 0 1 0).chainRemaining = 1 := by
  have hfind : findNearestEnemyInRange (mkEnemy 1 0 0 10 100).x (mkEnemy 1 0 0 10 100).y 170
      ((hitResolve chainCtx (fun _ => 1 / 2) ⟨chainWorld, 0, 0⟩ (mkProjectile 11 0 0 0 1 0) 0
        (mkEnemy 1 0 0 10 100)).1.world.enemies.filter fun other =>
          other.id ≠ (mkEnemy 1 0 0 10 100).id ∧
          other.id ∉ (mkProjectile 11 0 0 0 1 0).hitEnemyIds ++ [(mkEnemy 1 0 0 10 100).id] ∧
          0 < other.hp) = some (mkEnemy 2 100 0 10 100) := by
    rw [hitResolve_enemies]
    norm_num [chainWorld, createWorld, mkEnemy, mkProjectile, chainCtx, mkCtx, defaultSettings,
      normalize, findNearestEnemyInRange, findNearestGo, List.filter]
  rw [hitResolve_snd_eq chainCtx (fun _ => 1 / 2) ⟨chainWorld, 0, 0⟩ (mkProjectile 11 0 0 0 1 0) 0
    (mkEnemy 1 0 0 10 100), hfind,
    hitResolve_weapon chainCtx (fun _ => 1 / 2) ⟨chainWorld, 0, 0⟩ (mkProjectile 11 0 0 0 1 0) 0
    (mkEnemy 1 0 0 10 100)]
  norm_num [mkProjectile, mkEnemy, chainCtx, mkCtx, defaultSettings, chainWorld, createWorld,
    startingWeapon, normalize]

/-- The particle loop consumes exactly three draws per spawned particle as
long as the particle cap is not reached. -/
theorem spawnParticlesGo_cursor (ctx : Ctx) (r : ℕ → ℚ) (x y : ℚ) (kind : ParticleKind) :
    ∀ (n : ℕ) (w : World) (c : ℕ), w.particles.length + n ≤ maxParticles →
      (spawnParticlesGo ctx r x y kind n w c).2 = c + 3 * n := by
  intro n
  induction n with
  | zero =>
    intro w c _
    rw [spawnParticlesGo]
    simp
  | succ m ih =>
    intro w c h
    have hfull : ¬ maxParticles ≤ w.particles.length := by omega
    rw [spawnParticlesGo, dif_neg (Nat.succ_ne_zero m), if_neg hfull]
    simp only [Nat.add_sub_cancel]
    rw [ih]
    · omega
    · simp only [List.length_append, List.length_singleton]
      omega

/-- C2 (amended): spawnParticles changes nothing of the gameplay state (its
world effect is confined to the particles list, for any settings), but it
does consume shared rng draws, and the number of draws depends on the
reduce-motion flag: three per particle on the full count with reduce-motion
off, and three per particle on the throttled count ceil(count * 0.35) with
reduce-motion on.  A later crit roll reads the stream at the resulting
cursor, so the two settings can diverge in gameplay. -/
theorem spawn_particles_cosmetic_but_consumes_rng (ctx : Ctx) (r : ℕ → ℚ) (x y : ℚ)
    (kind : ParticleKind) (count : ℕ) (w : World) (c : ℕ) :
    (∃ ps, (spawnParticles ctx r x y kind count w c).1 = {w with particles := ps}) ∧
    (¬ctx.settings.reduceMotion → w.particles.length + count ≤ maxParticles →
      (spawnParticles ctx r x y kind count w c).2 = c + 3 * count) ∧
    (ctx.settings.reduceMotion →
      w.particles.length + Nat.ceil ((count : ℚ) * 35 / 100) ≤ maxParticles →
      (spawnParticles ctx r x y kind count w c).2 = c + 3 * Nat.ceil ((count : ℚ) * 35 / 100)) := by
  refine ⟨spawnParticles_only_particles_aux ctx r x y kind count w c, ?_, ?_⟩
  · intro hrm hlen
    rw [spawnParticles, if_neg hrm]
    exact spawnParticlesGo_cursor ctx r x y kind count w c hlen
  · intro hrm hlen
    rw [spawnParticles, if_pos hrm]
    exact spawnParticlesGo_cursor ctx r x y kind _ w c hlen

/-- Witness: with reduce-motion off, spawning six particles advances the
cursor by eighteen draws. -/
theorem spawn_particles_cosmetic_but_consumes_rng_witness :
    (spawnParticles (mkCtx defaultSettings) (fun _ => 0) 0 0 ParticleKind.spark 6
      (createWorld 800 600) 0).2 = 18 := by
  have h := spawn_particles_cosmetic_but_consumes_rng (mkCtx defaultSettings) (fun _ => 0) 0 0
    ParticleKind.spark 6 (createWorld 800 600) 0
  have h2 := h.2.1 (by norm_num [mkCtx, defaultSettings]) (by norm_num [createWorld, maxParticles])
  rw [h2]

/-- The rng cursor after hitResolve: one crit draw plus three draws per
spark particle actually spawned (n1 is the possibly throttled count). -/
theorem hitResolve_cursor (ctx : Ctx) (r : ℕ → ℚ) (st : CombatSt) (p : PlayerProjectile)
    (i : ℕ) (e : EnemyState) (n1 : ℕ)
    (hn1 : (if ctx.settings.reduceMotion
        then Nat.ceil (((if r st.cursor < p.critChance then 12 else 6 : ℕ) : ℚ) * 35 / 100)
        else (if r st.cursor < p.critChance then 12 else 6)) = n1)
    (hlen : st.world.particles.length + n1 ≤ maxParticles) :
    (hitResolve ctx r st p i e).1.cursor = st.cursor + 1 + 3 * n1 := by
  simp only [hitResolve]
  rw [spawnParticles, hn1]
  exact spawnParticlesGo_cursor ctx r e.x e.y ParticleKind.spark n1 _ _ hlen

/-- The reduce-motion-off combat run on the two-projectile world: the first
hit consumes 19 draws, the second crit roll reads stream position 19 and
crits, leaving the enemies at 90 and 82 hp. -/
theorem rm_run_off :
    ((combatSystem (mkCtx settingsOff) rmStream (1 / 60) ⟨rmWorld, 0, 0⟩).world.enemies.map
      fun e => e.hp) = [90, 82] := by
  have hw4 : enemyProjPhase (mkCtx settingsOff) (contactPhase (mkCtx settingsOff)
      (minePhase (mkCtx settingsOff) rmStream (sawPhase (mkCtx settingsOff) (1 / 60)
        {rmWorld with
          playerGraceRemaining := max 0 (rmWorld.playerGraceRemaining - 1 / 60)
          playerFlashRemaining := max 0 (rmWorld.playerFlashRemaining - 1 / 60)}) 0).1) = rmWorld := by
    norm_num [sawPhase, minePhase, mineGo, contactPhase, contactGo, enemyProjPhase, enemyProjGo,
      applyPlayerHit, hypGe, rmWorld, createWorld, mkEnemy, mkProjectile, mkCtx, settingsOff,
      shouldShake]
  have hc2 : (minePhase (mkCtx settingsOff) rmStream (sawPhase (mkCtx settingsOff) (1 / 60)
      {rmWorld with
        playerGraceRemaining := max 0 (rmWorld.playerGraceRemaining - 1 / 60)
        playerFlashRemaining := max 0 (rmWorld.playerFlashRemaining - 1 / 60)}) 0).2 = 0 := by
    norm_num [sawPhase, minePhase, mineGo, rmWorld, createWorld, mkCtx, settingsOff, mkEnemy,
      mkProjectile]
  have hf1 : firstHitIndex (mkProjectile 21 100 100 1 0 0) rmWorld.enemies 0 =
      some (0, mkEnemy 1 100 100 10 100) := by
    norm_num [firstHitIndex, hypGt, rmWorld, createWorld, mkEnemy, mkProjectile]
  have hen1 : (hitResolve (mkCtx settingsOff) rmStream ⟨rmWorld, 0, 0⟩
      (mkProjectile 21 100 100 1 0 0) 0 (mkEnemy 1 100 100 10 100)).1.world.enemies =
      [{mkEnemy 1 100 100 10 100 with hp := 90}, mkEnemy 2 300 300 10 100] := by
    rw [hitResolve_enemies]
    norm_num [rmWorld, createWorld, mkEnemy, mkProjectile, rmStream, normalize, mkCtx, settingsOff]
  have hcur1 : (hitResolve (mkCtx settingsOff) rmStream ⟨rmWorld, 0, 0⟩
      (mkProjectile 21 100 100 1 0 0) 0 (mkEnemy 1 100 100 10 100)).1.cursor = 19 := by
    have h := hitResolve_cursor (mkCtx settingsOff) rmStream ⟨rmWorld, 0, 0⟩
      (mkProjectile 21 100 100 1 0 0) 0 (mkEnemy 1 100 100 10 100) 6
      (by norm_num [mkCtx, settingsOff, mkProjectile, rmStream])
      (by norm_num [rmWorld, createWorld, maxParticles])
    rw [h]
  have hf2 : firstHitIndex (mkProjectile 22 300 300 1 0 (1 / 2))
      [{mkEnemy 1 100 100 10 100 with hp := 90}, mkEnemy 2 300 300 10 100] 0 =
      some (1, mkEnemy 2 300 300 10 100) := by
    norm_num [firstHitIndex, hypGt, mkEnemy, mkProjectile]
  have hen2 : (hitResolve (mkCtx settingsOff) rmStream
      (hitResolve (mkCtx settingsOff) rmStream ⟨rmWorld, 0, 0⟩
        (mkProjectile 21 100 100 1 0 0) 0 (mkEnemy 1 100 100 10 100)).1
      (mkProjectile 22 300 300 1 0 (1 / 2)) 1 (mkEnemy 2 300 300 10 100)).1.world.enemies =
      [{mkEnemy 1 100 100 10 100 with hp := 90}, {mkEnemy 2 300 300 10 100 with hp := 82}] := by
    rw [hitResolve_enemies, hen1, hcur1]
    norm_num [mkEnemy, mkProjectile, rmStream, normalize, mkCtx, settingsOff]
  have hprojgo : (projGo (mkCtx settingsOff) rmStream
      [mkProjectile 21 100 100 1 0 0, mkProjectile 22 300 300 1 0 (1 / 2)]
      ⟨rmWorld, 0, 0⟩).1.world.enemies =
      [{mkEnemy 1 100 100 10 100 with hp := 90}, {mkEnemy 2 300 300 10 100 with hp := 82}] := by
    simp only [projGo, hf1, hen1, hf2]
    exact hen2
  simp only [combatSystem]
  rw [hw4, hc2]
  have h6 := (defeatSweep_spec (mkCtx settingsOff) rmStream
    (projPhase (mkCtx settingsOff) rmStream ⟨rmWorld, 0, 0⟩).world
    (projPhase (mkCtx settingsOff) rmStream ⟨rmWorld, 0, 0⟩).cursor).1
  rw [h6]
  have h7 : (projPhase (mkCtx settingsOff) rmStream ⟨rmWorld, 0, 0⟩).world.enemies =
      [{mkEnemy 1 100 100 10 100 with hp := 90}, {mkEnemy 2 300 300 10 100 with hp := 82}] :=
    hprojgo
  rw [h7]
  norm_num [mkEnemy]

/-- The same combat run with reduce-motion on: the first hit's spark burst
is throttled from 6 to 3 particles, so only 10 draws are consumed; the
second crit roll reads stream position 10 and misses the crit, leaving the
enemies at 90 and 90 hp. -/
theorem rm_run_on :
    ((combatSystem (mkCtx settingsRM) rmStream (1 / 60) ⟨rmWorld, 0, 0⟩).world.enemies.map
      fun e => e.hp) = [90, 90] := by
  have hw4 : enemyProjPhase (mkCtx settingsRM) (contactPhase (mkCtx settingsRM)
      (minePhase (mkCtx settingsRM) rmStream (sawPhase (mkCtx settingsRM) (1 / 60)
        {rmWorld with
          playerGraceRemaining := max 0 (rmWorld.playerGraceRemaining - 1 / 60)
          playerFlashRemaining := max 0 (rmWorld.playerFlashRemaining - 1 / 60)}) 0).1) = rmWorld := by
    norm_num [sawPhase, minePhase, mineGo, contactPhase, contactGo, enemyProjPhase, enemyProjGo,
      applyPlayerHit, hypGe, rmWorld, createWorld, mkEnemy, mkProjectile, mkCtx, settingsRM,
      shouldShake]
  have hc2 : (minePhase (mkCtx settingsRM) rmStream (sawPhase (mkCtx settingsRM) (1 / 60)
      {rmWorld with
        playerGraceRemaining := max 0 (rmWorld.playerGraceRemaining - 1 / 60)
        playerFlashRemaining := max 0 (rmWorld.playerFlashRemaining - 1 / 60)}) 0).2 = 0 := by
    norm_num [sawPhase, minePhase, mineGo, rmWorld, createWorld, mkCtx, settingsRM, mkEnemy,
      mkProjectile]
  have hf1 : firstHitIndex (mkProjectile 21 100 100 1 0 0) rmWorld.enemies 0 =
      some (0, mkEnemy 1 100 100 10 100) := by
    norm_num [firstHitIndex, hypGt, rmWorld, createWorld, mkEnemy, mkProjectile]
  have hen1 : (hitResolve (mkCtx settingsRM) rmStream ⟨rmWorld, 0, 0⟩
      (mkProjectile 21 100 100 1 0 0) 0 (mkEnemy 1 100 100 10 100)).1.world.enemies =
      [{mkEnemy 1 100 100 10 100 with hp := 90}, mkEnemy 2 300 300 10 100] := by
    rw [hitResolve_enemies]
    norm_num [rmWorld, createWorld, mkEnemy, mkProjectile, rmStream, normalize, mkCtx, settingsRM]
  have hcur1 : (hitResolve (mkCtx settingsRM) rmStream ⟨rmWorld, 0, 0⟩
      (mkProjectile 21 100 100 1 0 0) 0 (mkEnemy 1 100 100 10 100)).1.cursor = 10 := by
    have h := hitResolve_cursor (mkCtx settingsRM) rmStream ⟨rmWorld, 0, 0⟩
      (mkProjectile 21 100 100 1 0 0) 0 (mkEnemy 1 100 100 10 100) 3
      (by norm_num [mkCtx, settingsRM, mkProjectile, rmStream, Nat.ceil_eq_iff])
      (by norm_num [rmWorld, createWorld, maxParticles])
    rw [h]
  have hf2 : firstHitIndex (mkProjectile 22 300 300 1 0 (1 / 2))
      [{mkEnemy 1 100 100 10 100 with hp := 90}, mkEnemy 2 300 300 10 100] 0 =
      some (1, mkEnemy 2 300 300 10 100) := by
    norm_num [firstHitIndex, hypGt, mkEnemy, mkProjectile]
  have hen2 : (hitResolve (mkCtx settingsRM) rmStream
      (hitResolve (mkCtx settingsRM) rmStream ⟨rmWorld, 0, 0⟩
        (mkProjectile 21 100 100 1 0 0) 0 (mkEnemy 1 100 100 10 100)).1
      (mkProjectile 22 300 300 1 0 (1 / 2)) 1 (mkEnemy 2 300 300 10 100)).1.world.enemies =
      [{mkEnemy 1 100 100 10 100 with hp := 90}, {mkEnemy 2 300 300 10 100 with hp := 90}] := by
    rw [hitResolve_enemies, hen1, hcur1]
    norm_num [mkEnemy, mkProjectile, rmStream, normalize, mkCtx, settingsRM]
  have hprojgo : (projGo (mkCtx settingsRM) rmStream
      [mkProjectile 21 100 100 1 0 0, mkProjectile 22 300 300 1 0 (1 / 2)]
      ⟨rmWorld, 0, 0⟩).1.world.enemies =
      [{mkEnemy 1 100 100 10 100 with hp := 90}, {mkEnemy 2 300 300 10 100 with hp := 90}] := by
    simp only [projGo, hf1, hen1, hf2]
    exact hen2
  simp only [combatSystem]
  rw [hw4, hc2]
  have h6 := (defeatSweep_spec (mkCtx settingsRM) rmStream
    (projPhase (mkCtx settingsRM) rmStream ⟨rmWorld, 0, 0⟩).world
    (projPhase (mkCtx settingsRM) rmStream ⟨rmWorld, 0, 0⟩).cursor).1
  rw [h6]
  have h7 : (projPhase (mkCtx settingsRM) rmStream ⟨rmWorld, 0, 0⟩).world.enemies =
      [{mkEnemy 1 100 100 10 100 with hp := 90}, {mkEnemy 2 300 300 10 100 with hp := 90}] :=
    hprojgo
  rw [h7]
  norm_num [mkEnemy]

/-- Two combat steps from identical state, draw stream and inputs, whose
settings differ only in the reduce-motion flag, end with different enemy
hp: reduce-motion's particle throttling shifts the shared rng cursor, so a
later crit roll reads a different draw and the damage dealt changes. -/
theorem reduce_motion_changes_combat_damage :
    ((combatSystem (mkCtx settingsOff) rmStream (1 / 60) ⟨rmWorld, 0, 0⟩).world.enemies.map
      fun e => e.hp) = [90, 82] ∧
    ((combatSystem (mkCtx settingsRM) rmStream (1 / 60) ⟨rmWorld, 0, 0⟩).world.enemies.map
      fun e => e.hp) = [90, 90] ∧
    settingsOff.volume = settingsRM.volume ∧
    settingsOff.screenShake = settingsRM.screenShake ∧
    settingsOff.hitStop = settingsRM.hitStop ∧
    settingsOff.highContrast = settingsRM.highContrast ∧
    settingsOff.showDamageText = settingsRM.showDamageText ∧
    settingsOff.reduceMotion = false ∧
    settingsRM.reduceMotion = true :=
  ⟨rm_run_off, rm_run_on, rfl, rfl, rfl, rfl, rfl, rfl, rfl⟩

end NeonDrift
